import Mathlib

/-!
# ClientConfig controller of k8ssandra-operator

A shallow embedding of `controllers/config/clientconfig_controller.go`:
the drift-detection reconciler (`Reconcile`), the secret-event mapper
(`toMatchingClientConfig`) and the bootstrap (`InitClientConfigs`,
`calculateHashes`, `initAdditionalClusterConfig`).

The controller talks to collaborators that live outside the file: the
Kubernetes object-access layer (`Get`, `List`, `Update`), the client cache
(`GetRestConfig`, `AddClient`), `cluster.New`, the manager (`mgr.Add`) and the
cancel function used for shutdown.  Their effects are made explicit: the
objects of the API server are a `Store`, every call to a collaborator is
appended to a `trace`, and the answers of the collaborators that the controller
cannot determine (injected failures, constructed handles, hash values) are the
fields of an environment `Env`, each of which may depend on the whole current
`World`, hence on time.
-/

namespace ClientConfigController

/-! ## Data model -/

deriving instance DecidableEq for Except

/-- Go `error` values as far as the controller distinguishes them:
`errors.IsNotFound` is the only test the code performs on an error. -/
inductive Err
  | notFound
  | other (msg : String)
  deriving DecidableEq, Repr

/-- `errors.IsNotFound(err)`. -/
def Err.IsNotFound : Err → Bool
  | Err.notFound => true
  | Err.other _ => false

/-- `types.NamespacedName`. -/
structure NamespacedName where
  Namespace : String
  Name : String
  deriving DecidableEq, Repr

/-- `corev1.LocalObjectReference`. -/
structure LocalObjectReference where
  Name : String
  deriving DecidableEq, Repr

/-- `configapi.ClientConfigSpec`: the context name and the reference to the
kubeconfig secret. -/
structure ClientConfigSpec where
  ContextName : String
  KubeConfigSecret : LocalObjectReference
  deriving DecidableEq, Repr

/-- `configapi.ClientConfig`, with the parts of `ObjectMeta` the controller
reads or writes.  `Annotations` is a Go map, kept as an association list
read through `mapGet` and written through `mapSet`; the nil map is `[]`. -/
structure ClientConfig where
  Name : String
  Namespace : String
  Annotations : List (String × String)
  Spec : ClientConfigSpec
  deriving DecidableEq, Repr

/-- `corev1.Secret`: identity and `Data` (a map from key to bytes). -/
structure Secret where
  Name : String
  Namespace : String
  Data : List (String × List Nat)
  deriving DecidableEq, Repr

/-- `rest.Config`, an external handle. -/
structure RestConfig where
  handle : Nat
  deriving DecidableEq, Repr

/-- The `client.Client` of a constructed cluster, an external handle. -/
structure ClusterClient where
  handle : Nat
  deriving DecidableEq, Repr

/-- `cluster.Cluster`, an external handle together with the client that
`GetClient()` returns. -/
structure Cluster where
  handle : Nat
  client : ClusterClient
  deriving DecidableEq, Repr

/-- `c.GetClient()`. -/
def Cluster.GetClient (c : Cluster) : ClusterClient := c.client

/-- What the option function passed to `cluster.New` leaves in
`cluster.Options`: the scheme, and `Cache.DefaultNamespaces` when
`len(namespaces) > 0` (the keys inserted into the map, in insertion order). -/
structure ClusterOptions where
  Scheme : Nat
  DefaultNamespaces : Option (List String)
  deriving DecidableEq, Repr

/-- `ctrl.Result`. -/
structure Result where
  Requeue : Bool
  RequeueAfter : Nat
  deriving DecidableEq, Repr

/-- `ctrl.Result{}`. -/
def Result.empty : Result := { Requeue := false, RequeueAfter := 0 }

/-- `ctrl.Request` / `reconcile.Request`. -/
structure Request where
  NamespacedName : NamespacedName
  deriving DecidableEq, Repr

/-! ## Go maps as association lists -/

/-- Go `v, found := m[k]`: the value stored under `k`, if any. -/
def mapGet {κ ν : Type} [DecidableEq κ] (k : κ) : List (κ × ν) → Option ν
  | [] => none
  | (k', v) :: m => if k' = k then some v else mapGet k m

/-- Go `m[k] = v`. -/
def mapSet {κ ν : Type} [DecidableEq κ] (k : κ) (v : ν) : List (κ × ν) → List (κ × ν)
  | [] => [(k, v)]
  | (k', v') :: m => if k' = k then (k, v) :: m else (k', v') :: mapSet k v m

/-- `metav1.HasAnnotation(obj, ann)`: `_, found := obj.Annotations[ann]`. -/
def HasAnnotation (obj : ClientConfig) (ann : String) : Bool :=
  (mapGet ann obj.Annotations).isSome

/-- `metav1.SetMetaDataAnnotation(&obj, ann, value)`. -/
def SetMetaDataAnnotation (obj : ClientConfig) (ann value : String) : ClientConfig :=
  { obj with Annotations := mapSet ann value obj.Annotations }

/-- Go `obj.Annotations[ann]`: the zero value `""` when the key is missing. -/
def annotationValue (obj : ClientConfig) (ann : String) : String :=
  (mapGet ann obj.Annotations).getD ""

/-! ## The world: API-server objects, controller state, trace -/

/-- The objects held by the API server of the control-plane cluster. -/
structure Store where
  clientConfigs : List ClientConfig
  secrets : List Secret
  deriving DecidableEq, Repr

/-- One call made to a collaborator, with its outcome where it has one. -/
inductive Event
  | getClientConfig (key : NamespacedName) (err : Option Err)
  | getSecret (key : NamespacedName) (err : Option Err)
  | list (ns : String) (err : Option Err)
  | update (obj : ClientConfig) (err : Option Err)
  | getRestConfig (cCfg : ClientConfig) (res : Except Err RestConfig)
  | clusterNew (cfg : RestConfig) (opts : ClusterOptions) (res : Except Err Cluster)
  | addClient (name : String) (client : ClusterClient)
  | mgrAdd (c : Cluster) (err : Option Err)
  | shutdown
  deriving DecidableEq, Repr

/-- The error of a fallible result. -/
def errOf {α : Type} : Except Err α → Option Err
  | Except.ok _ => none
  | Except.error e => some e

/-- The error a call ended with, if it failed. -/
def Event.failure : Event → Option Err
  | Event.getClientConfig _ e => e
  | Event.getSecret _ e => e
  | Event.list _ e => e
  | Event.update _ e => e
  | Event.getRestConfig _ r => errOf r
  | Event.clusterNew _ _ r => errOf r
  | Event.addClient _ _ => none
  | Event.mgrAdd _ e => e
  | Event.shutdown => none

/-- Everything the controller can read or change.
* `store`: the API server's objects;
* `secretFilter`: the field `r.secretFilter` (a Go map);
* `cancelled`: whether the context behind `r.shutdownFunc` (a
  `context.CancelFunc`) has been cancelled;
* `trace`: every call made to a collaborator so far, oldest first. -/
structure World where
  store : Store
  secretFilter : List (NamespacedName × NamespacedName)
  cancelled : Bool
  trace : List Event
  deriving DecidableEq, Repr

/-- The collaborators' answers that the file does not determine.  Every
answer may depend on the current world, which includes the trace, so a call
may fail at one time and succeed at another.
* `ClientConfigHashAnnotation`: the constant `k8ssandraapi.ResourceHashAnnotation`;
* `hashSpec`, `hashData`: `utils.DeepHashString` on a `ClientConfigSpec` and on
  a secret's `Data`;
* `GetContextName`: the method of `configapi.ClientConfig`;
* `getClientConfigFault`, `getSecretFault`: a failure of `Get` other than
  NotFound (NotFound is decided by the store);
* `listFault`, `updateFault`: a failure of `List`, of `Update`;
* `GetRestConfig`: `r.ClientCache.GetRestConfig`;
* `clusterNew`: `cluster.New`;
* `mgrAdd`: a failure of `mgr.Add`;
* `Scheme`: the field `r.Scheme`. -/
structure Env where
  ClientConfigHashAnnotation : String
  hashSpec : ClientConfigSpec → String
  hashData : List (String × List Nat) → String
  GetContextName : ClientConfig → String
  getClientConfigFault : World → NamespacedName → Option String
  getSecretFault : World → NamespacedName → Option String
  listFault : World → String → Option Err
  updateFault : World → ClientConfig → Option Err
  GetRestConfig : World → ClientConfig → Except Err RestConfig
  clusterNew : World → RestConfig → ClusterOptions → Except Err Cluster
  mgrAdd : World → Cluster → Option Err
  Scheme : Nat

/-- The constant `KubeSecretHashAnnotation`. -/
def KubeSecretHashAnnotation : String := "k8ssandra.io/secret-hash"

/-- Append one event to the trace. -/
def World.record (w : World) (e : Event) : World :=
  { w with trace := w.trace ++ [e] }

/-! ## The object-access layer -/

/-- The ClientConfig stored under a key. -/
def Store.findClientConfig (s : Store) (key : NamespacedName) : Option ClientConfig :=
  s.clientConfigs.find? (fun c => decide (c.Namespace = key.Namespace ∧ c.Name = key.Name))

/-- The Secret stored under a key. -/
def Store.findSecret (s : Store) (key : NamespacedName) : Option Secret :=
  s.secrets.find? (fun c => decide (c.Namespace = key.Namespace ∧ c.Name = key.Name))

/-- The ClientConfigs a `List` call selects: those of namespace `ns`, all of
them when `ns` is empty (no `InNamespace` option, or `InNamespace("")`). -/
def Store.listClientConfigs (s : Store) (ns : String) : List ClientConfig :=
  if ns = "" then s.clientConfigs else s.clientConfigs.filter (fun c => decide (c.Namespace = ns))

/-- The store after a successful `Update(obj)`: `obj` replaces the object of
the same namespace and name. -/
def Store.replaceClientConfig (s : Store) (obj : ClientConfig) : Store :=
  { s with clientConfigs := s.clientConfigs.map (fun c =>
      if c.Namespace = obj.Namespace ∧ c.Name = obj.Name then obj else c) }

/-- `nonCacheClient.Get(ctx, key, &clientConfig)`. -/
def getClientConfig (env : Env) (w : World) (key : NamespacedName) :
    Except Err ClientConfig × World :=
  let r : Except Err ClientConfig :=
    match env.getClientConfigFault w key with
    | some msg => Except.error (Err.other msg)
    | none =>
      match w.store.findClientConfig key with
      | some c => Except.ok c
      | none => Except.error Err.notFound
  (r, w.record (Event.getClientConfig key (errOf r)))

/-- `anyClient.Get(ctx, secretName, secret)`. -/
def getSecret (env : Env) (w : World) (key : NamespacedName) :
    Except Err Secret × World :=
  let r : Except Err Secret :=
    match env.getSecretFault w key with
    | some msg => Except.error (Err.other msg)
    | none =>
      match w.store.findSecret key with
      | some c => Except.ok c
      | none => Except.error Err.notFound
  (r, w.record (Event.getSecret key (errOf r)))

/-- `uncachedClient.List(ctx, &cConfigs, client.InNamespace(ns))`, and
`uncachedClient.List(ctx, &cConfigs)` for `ns = ""`. -/
def listClientConfigs (env : Env) (w : World) (ns : String) :
    Except Err (List ClientConfig) × World :=
  let r : Except Err (List ClientConfig) :=
    match env.listFault w ns with
    | some e => Except.error e
    | none => Except.ok (w.store.listClientConfigs ns)
  (r, w.record (Event.list ns (errOf r)))

/-- `uncachedClient.Update(ctx, &cCfg)`: fails with the injected error, or
with NotFound when the object does not exist; otherwise persists `obj`. -/
def update (env : Env) (w : World) (obj : ClientConfig) : Option Err × World :=
  let r : Option Err :=
    match env.updateFault w obj with
    | some e => some e
    | none =>
      match w.store.findClientConfig { Namespace := obj.Namespace, Name := obj.Name } with
      | some _ => none
      | none => some Err.notFound
  let store := match r with
    | none => w.store.replaceClientConfig obj
    | some _ => w.store
  (r, { w with store := store, trace := w.trace ++ [Event.update obj r] })

/-- `r.shutdownFunc()`: cancels the context; a second call changes nothing
more (`context.CancelFunc`). -/
def shutdownFunc (w : World) : World :=
  { w with cancelled := true, trace := w.trace ++ [Event.shutdown] }

/-! ## The other collaborators -/

/-- `r.ClientCache.GetRestConfig(&cCfg)`. -/
def getRestConfig (env : Env) (w : World) (cCfg : ClientConfig) :
    Except Err RestConfig × World :=
  let r := env.GetRestConfig w cCfg
  (r, w.record (Event.getRestConfig cCfg r))

/-- The options `cluster.New` receives from the function literal of
`initAdditionalClusterConfig`: `o.Scheme = r.Scheme`, and the namespaces as
keys of `o.Cache.DefaultNamespaces` when there are any. -/
def clusterOptions (env : Env) (namespaces : List String) : ClusterOptions :=
  { Scheme := env.Scheme,
    DefaultNamespaces := if namespaces.length > 0 then some namespaces else none }

/-- `cluster.New(cfg, func(o *cluster.Options) ...)`. -/
def clusterNew (env : Env) (w : World) (cfg : RestConfig) (namespaces : List String) :
    Except Err Cluster × World :=
  let r := env.clusterNew w cfg (clusterOptions env namespaces)
  (r, w.record (Event.clusterNew cfg (clusterOptions env namespaces) r))

/-- `r.ClientCache.AddClient(name, client)`: no result is returned to the
caller. -/
def addClient (w : World) (name : String) (client : ClusterClient) : World :=
  w.record (Event.addClient name client)

/-- `mgr.Add(c)`. -/
def mgrAdd (env : Env) (w : World) (c : Cluster) : Option Err × World :=
  let r := env.mgrAdd w c
  (r, w.record (Event.mgrAdd c r))

/-! ## The controller -/

/-- `calculateHashes`: fetch the secret named by the ClientConfig in the
ClientConfig's namespace, then hash the spec and the secret's data. -/
def calculateHashes (env : Env) (w : World) (clientCfg : ClientConfig) :
    Except Err (String × String) × World :=
  let secretName : NamespacedName :=
    { Name := clientCfg.Spec.KubeConfigSecret.Name, Namespace := clientCfg.Namespace }
  match getSecret env w secretName with
  | (Except.error err, w1) => (Except.error err, w1)
  | (Except.ok secret, w1) =>
    let cfgHash := env.hashSpec clientCfg.Spec
    let secretHash := env.hashData secret.Data
    (Except.ok (cfgHash, secretHash), w1)

/-- `ClientConfigReconciler.Reconcile`. -/
def Reconcile (env : Env) (w : World) (req : Request) : (Result × Option Err) × World :=
  match getClientConfig env w req.NamespacedName with
  | (Except.error err, w1) =>
    if err.IsNotFound then
      ((Result.empty, none), shutdownFunc w1)
    else
      ((Result.empty, some err), w1)
  | (Except.ok clientConfig, w1) =>
    if ! HasAnnotation clientConfig env.ClientConfigHashAnnotation ||
        ! HasAnnotation clientConfig KubeSecretHashAnnotation then
      ((Result.empty, none), shutdownFunc w1)
    else
      match calculateHashes env w1 clientConfig with
      | (Except.error err, w2) =>
        if err.IsNotFound then
          ((Result.empty, none), shutdownFunc w2)
        else
          ((Result.empty, some err), w2)
      | (Except.ok (cCfgHash, secretHash), w2) =>
        if annotationValue clientConfig env.ClientConfigHashAnnotation ≠ cCfgHash ∨
            annotationValue clientConfig KubeSecretHashAnnotation ≠ secretHash then
          ((Result.empty, none), shutdownFunc w2)
        else
          ((Result.empty, none), w2)

/-- The closure `toMatchingClientConfig` of `SetupWithManager`, reading
`r.secretFilter`. -/
def toMatchingClientConfig (w : World) (secret : Secret) : List Request :=
  let requests : List Request := []
  let secretKey : NamespacedName := { Name := secret.Name, Namespace := secret.Namespace }
  match mapGet secretKey w.secretFilter with
  | some clientConfigName => requests ++ [{ NamespacedName := clientConfigName }]
  | none => requests

/-- `initAdditionalClusterConfig`. -/
def initAdditionalClusterConfig (env : Env) (w : World) (cCfg : ClientConfig)
    (namespaces : List String) : Except Err Cluster × World :=
  let cCfgName : NamespacedName := { Name := cCfg.Name, Namespace := cCfg.Namespace }
  let secretName : NamespacedName :=
    { Name := cCfg.Spec.KubeConfigSecret.Name, Namespace := cCfg.Namespace }
  match calculateHashes env w cCfg with
  | (Except.error err, w1) => (Except.error err, w1)
  | (Except.ok (cCfgHash, secretHash), w1) =>
    let cCfg1 := SetMetaDataAnnotation cCfg env.ClientConfigHashAnnotation cCfgHash
    let cCfg2 := SetMetaDataAnnotation cCfg1 KubeSecretHashAnnotation secretHash
    match update env w1 cCfg2 with
    | (some err, w2) => (Except.error err, w2)
    | (none, w2) =>
      let w3 : World := { w2 with secretFilter := mapSet secretName cCfgName w2.secretFilter }
      match getRestConfig env w3 cCfg2 with
      | (Except.error err, w4) => (Except.error err, w4)
      | (Except.ok cfg, w4) =>
        match clusterNew env w4 cfg namespaces with
        | (Except.error err, w5) => (Except.error err, w5)
        | (Except.ok c, w5) =>
          let w6 := addClient w5 (env.GetContextName cCfg2) c.GetClient
          match mgrAdd env w6 c with
          | (some err, w7) => (Except.error err, w7)
          | (none, w7) => (Except.ok c, w7)

/-- Go `strings.Split(s, ",")` on the characters of `s`. -/
def splitOnComma : List Char → List (List Char)
  | [] => [[]]
  | c :: cs =>
    if c = ',' then [] :: splitOnComma cs
    else
      match splitOnComma cs with
      | [] => [[c]]
      | h :: t => (c :: h) :: t

/-- `strings.Split(watchNamespace, ",")`. -/
def stringsSplit (s : String) : List String :=
  (splitOnComma s.data).map String.mk

/-- The loop `for _, ns := range namespaces` of `InitClientConfigs`: one
`List` per namespace, the items appended to `clientConfigs`; the first failure
returns. -/
def listNamespaces (env : Env) :
    List String → List ClientConfig → World → Option Err × List ClientConfig × World
  | [], clientConfigs, w => (none, clientConfigs, w)
  | ns :: rest, clientConfigs, w =>
    match listClientConfigs env w ns with
    | (Except.error err, w1) => (some err, clientConfigs, w1)
    | (Except.ok items, w1) => listNamespaces env rest (clientConfigs ++ items) w1

/-- The loop `for _, cCfg := range clientConfigs` of `InitClientConfigs`: the
first failure returns `nil, err`. -/
def initLoop (env : Env) (namespaces : List String) :
    List ClientConfig → List Cluster → World → (Option (List Cluster) × Option Err) × World
  | [], additionalClusters, w => ((some additionalClusters, none), w)
  | cCfg :: rest, additionalClusters, w =>
    match initAdditionalClusterConfig env w cCfg namespaces with
    | (Except.error err, w1) => ((none, some err), w1)
    | (Except.ok c, w1) => initLoop env namespaces rest (additionalClusters ++ [c]) w1

/-- The value of `namespaces` in `InitClientConfigs`. -/
def watchedNamespaces (watchNamespace : String) : List String :=
  if watchNamespace ≠ "" then stringsSplit watchNamespace else []

/-- The first part of `InitClientConfigs`: gather `clientConfigs`, one `List`
per namespace, or a single unrestricted `List`. -/
def gatherClientConfigs (env : Env) (w : World) (watchNamespace : String) :
    Option Err × List ClientConfig × World :=
  if watchNamespace ≠ "" then
    listNamespaces env (watchedNamespaces watchNamespace) [] w
  else
    match listClientConfigs env w "" with
    | (Except.error err, w1) => (some err, [], w1)
    | (Except.ok items, w1) => (none, [] ++ items, w1)

/-- `ClientConfigReconciler.InitClientConfigs`: a nil list is `none`. -/
def InitClientConfigs (env : Env) (w : World) (watchNamespace : String) :
    (Option (List Cluster) × Option Err) × World :=
  match gatherClientConfigs env w watchNamespace with
  | (some err, _, w1) => ((none, some err), w1)
  | (none, clientConfigs, w1) =>
    let w2 : World := { w1 with secretFilter := [] }
    initLoop env (watchedNamespaces watchNamespace) clientConfigs [] w2

/-! ## Observations on a run -/

/-- The calls made between world `w` and a later world `w1`. -/
def eventsSince (w w1 : World) : List Event :=
  w1.trace.drop w.trace.length

/-- The call is a `Get` of the object-access layer. -/
def Event.isGet : Event → Bool
  | Event.getClientConfig _ _ => true
  | Event.getSecret _ _ => true
  | _ => false

/-- The key under which a ClientConfig is stored. -/
def ClientConfig.key (c : ClientConfig) : NamespacedName :=
  { Namespace := c.Namespace, Name := c.Name }

/-- The identity of the Secret a ClientConfig references:
`Spec.KubeConfigSecret.Name` in the ClientConfig's own namespace. -/
def ClientConfig.secretKey (c : ClientConfig) : NamespacedName :=
  { Namespace := c.Namespace, Name := c.Spec.KubeConfigSecret.Name }

/-- The four drift cases of the reconciler, as the specification lists them:
(1) the ClientConfig is absent, (2) it lacks one of the two hash annotations,
(3) its referenced Secret is absent, (4) one of the recomputed hashes differs
from the value of its annotation. -/
def driftCondition (env : Env) (s : Store) (req : Request) : Prop :=
  s.findClientConfig req.NamespacedName = none ∨
  (∃ cc, s.findClientConfig req.NamespacedName = some cc ∧
    ( HasAnnotation cc env.ClientConfigHashAnnotation = false ∨
      HasAnnotation cc KubeSecretHashAnnotation = false)) ∨
  (∃ cc, s.findClientConfig req.NamespacedName = some cc ∧
    s.findSecret cc.secretKey = none) ∨
  (∃ cc sec, s.findClientConfig req.NamespacedName = some cc ∧
    s.findSecret cc.secretKey = some sec ∧
    (env.hashSpec cc.Spec ≠ annotationValue cc env.ClientConfigHashAnnotation ∨
      env.hashData sec.Data ≠ annotationValue cc KubeSecretHashAnnotation))

/-- The run changed nothing: store, secret filter and cancellation state are
as before and every call made was a `Get`. -/
def isNoOp (w w1 : World) : Prop :=
  w1.store = w.store ∧ w1.secretFilter = w.secretFilter ∧ w1.cancelled = w.cancelled ∧
  ∀ ev ∈ eventsSince w w1, ev.isGet = true

/-- The ClientConfig that bootstrap persists: `cCfg` with the two hash
annotations set, in the order of the source. -/
def markedConfig (env : Env) (cCfg : ClientConfig) (secret : Secret) : ClientConfig :=
  SetMetaDataAnnotation
    ( SetMetaDataAnnotation cCfg env.ClientConfigHashAnnotation (env.hashSpec cCfg.Spec))
    KubeSecretHashAnnotation (env.hashData secret.Data)

/-- The world in which bootstrap of `cCfg` has committed its markers and its
secret-filter entry, after the calls `evs` that followed the Secret fetch. -/
def committedWorld (env : Env) (w : World) (cCfg : ClientConfig) (sec : Secret)
    (evs : List Event) : World :=
  { store := w.store.replaceClientConfig (markedConfig env cCfg sec),
    secretFilter := mapSet cCfg.secretKey cCfg.key w.secretFilter,
    cancelled := w.cancelled,
    trace := w.trace ++ (Event.getSecret cCfg.secretKey none ::
      Event.update (markedConfig env cCfg sec) none :: evs) }

/-- The six ways a call of `initAdditionalClusterConfig` on `cCfg` in world `w`
can end, each with the result returned and the world left behind. -/
inductive InitOutcome (env : Env) (w : World) (cCfg : ClientConfig) (namespaces : List String) :
    Except Err Cluster → World → Prop
  | secretFailed (e : Err) :
      InitOutcome env w cCfg namespaces (Except.error e)
        (w.record (Event.getSecret cCfg.secretKey (some e)))
  | updateFailed (sec : Secret) (e : Err)
      (hs : w.store.findSecret cCfg.secretKey = some sec) :
      InitOutcome env w cCfg namespaces (Except.error e)
        { w with trace := w.trace ++ [Event.getSecret cCfg.secretKey none,
            Event.update (markedConfig env cCfg sec) (some e)] }
  | restConfigFailed (sec : Secret) (e : Err)
      (hs : w.store.findSecret cCfg.secretKey = some sec)
      (hc : (w.store.findClientConfig cCfg.key).isSome = true) :
      InitOutcome env w cCfg namespaces (Except.error e)
        (committedWorld env w cCfg sec
          [Event.getRestConfig (markedConfig env cCfg sec) (Except.error e)])
  | clusterNewFailed (sec : Secret) (rc : RestConfig) (e : Err)
      (hs : w.store.findSecret cCfg.secretKey = some sec)
      (hc : (w.store.findClientConfig cCfg.key).isSome = true) :
      InitOutcome env w cCfg namespaces (Except.error e)
        (committedWorld env w cCfg sec
          [Event.getRestConfig (markedConfig env cCfg sec) (Except.ok rc),
           Event.clusterNew rc (clusterOptions env namespaces) (Except.error e)])
  | mgrAddFailed (sec : Secret) (rc : RestConfig) (c : Cluster) (e : Err)
      (hs : w.store.findSecret cCfg.secretKey = some sec)
      (hc : (w.store.findClientConfig cCfg.key).isSome = true) :
      InitOutcome env w cCfg namespaces (Except.error e)
        (committedWorld env w cCfg sec
          [Event.getRestConfig (markedConfig env cCfg sec) (Except.ok rc),
           Event.clusterNew rc (clusterOptions env namespaces) (Except.ok c),
           Event.addClient (env.GetContextName (markedConfig env cCfg sec)) c.GetClient,
           Event.mgrAdd c (some e)])
  | done (sec : Secret) (rc : RestConfig) (c : Cluster)
      (hs : w.store.findSecret cCfg.secretKey = some sec)
      (hc : (w.store.findClientConfig cCfg.key).isSome = true) :
      InitOutcome env w cCfg namespaces (Except.ok c)
        (committedWorld env w cCfg sec
          [Event.getRestConfig (markedConfig env cCfg sec) (Except.ok rc),
           Event.clusterNew rc (clusterOptions env namespaces) (Except.ok c),
           Event.addClient (env.GetContextName (markedConfig env cCfg sec)) c.GetClient,
           Event.mgrAdd c none])

/-- A run of the bootstrap loop in which every ClientConfig of the list is
initialized successfully, yielding one cluster each, from world `w` to `w2`. -/
inductive InitChain (env : Env) (namespaces : List String) :
    List ClientConfig → List Cluster → World → World → Prop
  | nil (w : World) : InitChain env namespaces [] [] w w
  | cons {cCfg : ClientConfig} {rest : List ClientConfig} {c : Cluster} {cs : List Cluster}
      {w w1 w2 : World}
      (hstep : InitOutcome env w cCfg namespaces (Except.ok c) w1)
      (hrest : InitChain env namespaces rest cs w1 w2) :
      InitChain env namespaces (cCfg :: rest) (c :: cs) w w2

/-- No call of the list failed. -/
def NoFailure (evs : List Event) : Prop :=
  ∀ x ∈ evs, x.failure = none

/-- The last call of the list failed with `e`, and no call before it failed. -/
def FailsLast (evs : List Event) (e : Err) : Prop :=
  ∃ good ev, evs = good ++ [ev] ∧ ev.failure = some e ∧ NoFailure good

/-- The ClientConfigs that bootstrap lists from a store, in listing order:
one namespace after the other when a watch namespace is given, all of them
otherwise. -/
def listedClientConfigs (s : Store) (watchNamespace : String) : List ClientConfig :=
  if watchNamespace ≠ "" then
    ((watchedNamespaces watchNamespace).map s.listClientConfigs).flatten
  else
    s.listClientConfigs ""

/-- Every call of the list is a `List` of the object-access layer. -/
def OnlyLists (evs : List Event) : Prop :=
  ∀ x ∈ evs, ∃ ns e, x = Event.list ns e

/-- Among the calls `evs`, cluster `c` was constructed for ClientConfig `cCfg`:
the rest config was derived from `cCfg` (carrying its markers), `cluster.New`
built `c` from that rest config, and the manager accepted `c`. -/
def constructedIn (env : Env) (namespaces : List String) (evs : List Event)
    (cCfg : ClientConfig) (c : Cluster) : Prop :=
  ∃ sec rc,
    Event.getRestConfig (markedConfig env cCfg sec) (Except.ok rc) ∈ evs ∧
    Event.clusterNew rc (clusterOptions env namespaces) (Except.ok c) ∈ evs ∧
    Event.mgrAdd c none ∈ evs

/-- The world in which the bootstrap loop starts: the listing calls `evs0`
have been made and `r.secretFilter` has been replaced by an empty map. -/
def bootWorld (w : World) (evs0 : List Event) : World :=
  { w with secretFilter := [], trace := w.trace ++ evs0 }

/-- A transient fetch error `e` occurs in the run of Reconcile on `req` from
world `w`: the Get of the ClientConfig fails with an error other than NotFound,
or the ClientConfig exists with both hash annotations and the Get of its
referenced Secret fails with an error other than NotFound. -/
def transientFetchError (env : Env) (w : World) (req : Request) (e : Err) : Prop :=
  (∃ msg, env.getClientConfigFault w req.NamespacedName = some msg ∧ e = Err.other msg) ∨
  (∃ cc msg, env.getClientConfigFault w req.NamespacedName = none ∧
    w.store.findClientConfig req.NamespacedName = some cc ∧
    HasAnnotation cc env.ClientConfigHashAnnotation = true ∧
    HasAnnotation cc KubeSecretHashAnnotation = true ∧
    env.getSecretFault (w.record (Event.getClientConfig req.NamespacedName none))
      cc.secretKey = some msg ∧
    e = Err.other msg)

/-! ## Order of the calls within one initialization -/

/-- The call registers a cluster connection: `AddClient` on the client cache
or `mgr.Add` on the manager. -/
def Event.isRegistration : Event → Bool
  | Event.addClient _ _ => true
  | Event.mgrAdd _ _ => true
  | _ => false

/-- The call belongs to the construction of the cluster connection:
`GetRestConfig` or `cluster.New`. -/
def Event.isConstruction : Event → Bool
  | Event.getRestConfig _ _ => true
  | Event.clusterNew _ _ _ => true
  | _ => false

/-- The call is a `GetRestConfig` or a `cluster.New` that returned an error. -/
def Event.isFailedConstruction : Event → Bool
  | Event.getRestConfig _ (Except.error _) => true
  | Event.clusterNew _ _ (Except.error _) => true
  | _ => false

/-- The call is a `GetRestConfig` or a `cluster.New` that succeeded. -/
def Event.isSuccessfulConstruction : Event → Bool
  | Event.getRestConfig _ (Except.ok _) => true
  | Event.clusterNew _ _ (Except.ok _) => true
  | _ => false

/-- The call is a successful `Update` that persists `cCfg` carrying both hash
annotations, with the values bootstrap computes. -/
def isMarkerCommit (env : Env) (cCfg : ClientConfig) (u : Event) : Prop :=
  ∃ sec, u = Event.update (markedConfig env cCfg sec) none ∧
    HasAnnotation (markedConfig env cCfg sec) env.ClientConfigHashAnnotation = true ∧
    HasAnnotation (markedConfig env cCfg sec) KubeSecretHashAnnotation = true

/-- In the sequence of calls `evs`, every call satisfying `Q` comes after some
call satisfying `P`. -/
def PrecededBy (P : Event → Prop) (Q : Event → Bool) (evs : List Event) : Prop :=
  ∀ (pre : List Event) (ev : Event) (post : List Event),
    evs = pre ++ ev :: post → Q ev = true → ∃ u ∈ pre, P u

/-! ## The secret filter built by bootstrap -/

/-- The identity of a Secret, as `toMatchingClientConfig` computes it. -/
def Secret.key (s : Secret) : NamespacedName :=
  { Name := s.Name, Namespace := s.Namespace }

/-- The secret filter after the entries of the given ClientConfigs have been
written, in order, into the map `m`. -/
def filterAfter (cfgs : List ClientConfig) (m : List (NamespacedName × NamespacedName)) :
    List (NamespacedName × NamespacedName) :=
  cfgs.foldl (fun acc c => mapSet c.secretKey c.key acc) m

/-! ## The registrations made by bootstrap -/

/-- The `AddClient` calls among `evs`, in order: key and client. -/
def addClientCalls (evs : List Event) : List (String × ClusterClient) :=
  evs.filterMap (fun ev =>
    match ev with
    | Event.addClient name client => some (name, client)
    | _ => none)

/-- The ClientConfig on which bootstrap calls `GetContextName`: `cCfg` with the
hash annotations computed from its Secret in store `s`. -/
def registeredConfig (env : Env) (s : Store) (cCfg : ClientConfig) : ClientConfig :=
  match s.findSecret cCfg.secretKey with
  | some sec => markedConfig env cCfg sec
  | none => cCfg

/-! ## Bootstrap followed by reconciliation -/

/-- The ClientConfig stored under `key` is in the state Reconcile accepts:
it exists with both hash annotations, its Secret exists, and each annotation
holds the hash Reconcile recomputes. -/
def Stable (env : Env) (s : Store) (key : NamespacedName) : Prop :=
  ∃ cc sec, s.findClientConfig key = some cc ∧
    s.findSecret cc.secretKey = some sec ∧
    HasAnnotation cc env.ClientConfigHashAnnotation = true ∧
    HasAnnotation cc KubeSecretHashAnnotation = true ∧
    annotationValue cc env.ClientConfigHashAnnotation = env.hashSpec cc.Spec ∧
    annotationValue cc KubeSecretHashAnnotation = env.hashData sec.Data

/-- The object-access layer answers the Gets of a run of Reconcile on `req`
from world `w` out of the store: with the object, or with NotFound. -/
def GetsAnswered (env : Env) (w : World) (req : Request) : Prop :=
  env.getClientConfigFault w req.NamespacedName = none ∧
  ∀ k, env.getSecretFault (w.record (Event.getClientConfig req.NamespacedName none)) k = none

/-! ## A concrete control plane -/

/-- A ClientConfig `ops/east` for the context `remote`. -/
def cfgEast : ClientConfig :=
  { Name := "east", Namespace := "ops", Annotations := [],
    Spec := { ContextName := "remote", KubeConfigSecret := { Name := "east-kubeconfig" } } }

/-- A second ClientConfig `ops/west`, deriving the same context name `remote`. -/
def cfgWest : ClientConfig :=
  { Name := "west", Namespace := "ops", Annotations := [],
    Spec := { ContextName := "remote", KubeConfigSecret := { Name := "west-kubeconfig" } } }

/-- The Secret referenced by `cfgEast`. -/
def secEast : Secret :=
  { Name := "east-kubeconfig", Namespace := "ops", Data := [("kubeconfig", [1, 2])] }

/-- The Secret referenced by `cfgWest`. -/
def secWest : Secret :=
  { Name := "west-kubeconfig", Namespace := "ops", Data := [("kubeconfig", [3])] }

/-- A store holding the two ClientConfigs and their Secrets. -/
def store0 : Store :=
  { clientConfigs := [cfgEast, cfgWest], secrets := [secEast, secWest] }

/-- The world at process start: nothing cancelled, no call made yet. -/
def world0 : World :=
  { store := store0, secretFilter := [], cancelled := false, trace := [] }

/-- Collaborators that never fail.  The context name is the spec's context
name, or the object's name when that is empty. -/
def envOk : Env :=
  { ClientConfigHashAnnotation := "k8ssandra.io/resource-hash",
    hashSpec := fun sp => sp.ContextName ++ "@" ++ sp.KubeConfigSecret.Name,
    hashData := fun d => String.join (d.map Prod.fst),
    GetContextName := fun c => if c.Spec.ContextName = "" then c.Name else c.Spec.ContextName,
    getClientConfigFault := fun _ _ => none,
    getSecretFault := fun _ _ => none,
    listFault := fun _ _ => none,
    updateFault := fun _ _ => none,
    GetRestConfig := fun w _ => Except.ok { handle := w.trace.length },
    clusterNew := fun _ cfg _ =>
      Except.ok { handle := cfg.handle, client := { handle := cfg.handle } },
    mgrAdd := fun _ _ => none,
    Scheme := 0 }

/-- Collaborators among which `GetRestConfig` always fails. -/
def envRestFails : Env :=
  { envOk with GetRestConfig := fun _ _ => Except.error (Err.other "no kubeconfig") }

/-- Collaborators among which every Get of a Secret times out. -/
def envSecretTimeout : Env :=
  { envOk with getSecretFault := fun _ _ => some "timeout" }

/-- The request for `ops/east`. -/
def reqEast : Request := { NamespacedName := cfgEast.key }

/-- The world bootstrap leaves behind when every collaborator succeeds. -/
def worldBooted : World := (InitClientConfigs envOk world0 "").2

/-! ## Outcomes of the calls to the object-access layer -/

theorem eventsSince_record (w w1 : World) (evs : List Event)
    (h : w1.trace = w.trace ++ evs) : eventsSince w w1 = evs := by
  simp [eventsSince, h]

theorem getSecret_ok (env : Env) (w w1 : World) (k : NamespacedName) (sec : Secret)
    (h : getSecret env w k = (Except.ok sec, w1)) :
    w.store.findSecret k = some sec ∧ w1 = w.record (Event.getSecret k none) := by
  simp only [getSecret] at h
  cases hf : env.getSecretFault w k with
  | some msg => simp [hf] at h
  | none =>
    cases hs : w.store.findSecret k with
    | none => simp [hf, hs] at h
    | some s =>
      simp only [hf, hs, errOf, Prod.mk.injEq, Except.ok.injEq] at h
      exact ⟨by rw [h.1], h.2.symm⟩

theorem getSecret_error (env : Env) (w w1 : World) (k : NamespacedName) (e : Err)
    (h : getSecret env w k = (Except.error e, w1)) :
    w1 = w.record (Event.getSecret k (some e)) := by
  simp only [getSecret] at h
  cases hf : env.getSecretFault w k with
  | some msg =>
    simp only [hf, errOf, Prod.mk.injEq, Except.error.injEq] at h
    rw [← h.2, h.1]
  | none =>
    cases hs : w.store.findSecret k with
    | none =>
      simp only [hf, hs, errOf, Prod.mk.injEq, Except.error.injEq] at h
      rw [← h.2, h.1]
    | some s => simp [hf, hs] at h

theorem calculateHashes_ok (env : Env) (w w1 : World) (cCfg : ClientConfig) (a b : String)
    (h : calculateHashes env w cCfg = (Except.ok (a, b), w1)) :
    ∃ sec, w.store.findSecret cCfg.secretKey = some sec ∧
      a = env.hashSpec cCfg.Spec ∧ b = env.hashData sec.Data ∧
      w1 = w.record (Event.getSecret cCfg.secretKey none) := by
  unfold calculateHashes at h
  rcases hg : getSecret env w { Name := cCfg.Spec.KubeConfigSecret.Name, Namespace := cCfg.Namespace }
    with ⟨_ | sec, wa⟩
  · simp [hg] at h
  · simp only [hg, Prod.mk.injEq, Except.ok.injEq] at h
    obtain ⟨hs, hw⟩ := getSecret_ok env w wa _ sec hg
    exact ⟨sec, hs, h.1.1.symm, h.1.2.symm, by rw [← h.2, hw]; rfl⟩

theorem calculateHashes_error (env : Env) (w w1 : World) (cCfg : ClientConfig) (e : Err)
    (h : calculateHashes env w cCfg = (Except.error e, w1)) :
    w1 = w.record (Event.getSecret cCfg.secretKey (some e)) := by
  unfold calculateHashes at h
  rcases hg : getSecret env w { Name := cCfg.Spec.KubeConfigSecret.Name, Namespace := cCfg.Namespace }
    with ⟨e1 | sec, wa⟩
  · simp only [hg, Prod.mk.injEq, Except.error.injEq] at h
    have hw := getSecret_error env w wa _ e1 hg
    rw [← h.2, hw, h.1]; rfl
  · simp [hg] at h

theorem update_ok (env : Env) (w w1 : World) (obj : ClientConfig)
    (h : update env w obj = (none, w1)) :
    (w.store.findClientConfig obj.key).isSome = true ∧
    w1 = { w with store := w.store.replaceClientConfig obj,
                  trace := w.trace ++ [Event.update obj none] } := by
  simp only [update, ClientConfig.key] at *
  cases hf : env.updateFault w obj with
  | some e => simp [hf] at h
  | none =>
    cases hs : w.store.findClientConfig { Namespace := obj.Namespace, Name := obj.Name } with
    | none => simp [hf, hs] at h
    | some o =>
      simp only [hf, hs, Prod.mk.injEq, true_and] at h
      exact ⟨rfl, h.symm⟩

theorem update_error (env : Env) (w w1 : World) (obj : ClientConfig) (e : Err)
    (h : update env w obj = (some e, w1)) :
    w1 = w.record (Event.update obj (some e)) := by
  simp only [update] at h
  cases hf : env.updateFault w obj with
  | some e1 =>
    simp only [hf, Prod.mk.injEq, Option.some.injEq] at h
    rw [← h.2, h.1]; rfl
  | none =>
    cases hs : w.store.findClientConfig { Namespace := obj.Namespace, Name := obj.Name } with
    | none =>
      simp only [hf, hs, Prod.mk.injEq, Option.some.injEq] at h
      rw [← h.2, ← h.1]; rfl
    | some o => simp [hf, hs] at h

/-! ## One initialization -/

theorem initAdditionalClusterConfig_outcome (env : Env) (w : World) (cCfg : ClientConfig)
    (namespaces : List String) :
    InitOutcome env w cCfg namespaces
      (initAdditionalClusterConfig env w cCfg namespaces).1
      (initAdditionalClusterConfig env w cCfg namespaces).2 := by
  unfold initAdditionalClusterConfig
  rcases hc : calculateHashes env w cCfg with ⟨e | ⟨a, b⟩, wa⟩
  · have hw := calculateHashes_error env w wa cCfg e hc
    subst hw
    exact InitOutcome.secretFailed e
  · obtain ⟨sec, hs, ha, hb, hw⟩ := calculateHashes_ok env w wa cCfg a b hc
    subst ha hb hw
    dsimp only
    rcases hu : update env (w.record (Event.getSecret cCfg.secretKey none))
      ( SetMetaDataAnnotation
        ( SetMetaDataAnnotation cCfg env.ClientConfigHashAnnotation (env.hashSpec cCfg.Spec))
        KubeSecretHashAnnotation (env.hashData sec.Data)) with ⟨_ | e, wb⟩
    · obtain ⟨hfound, hw⟩ := update_ok env _ wb _ hu
      subst hw
      dsimp only [getRestConfig, clusterNew, addClient, mgrAdd, World.record]
      have hfound2 : (w.store.findClientConfig cCfg.key).isSome = true := hfound
      split
      · rename_i e w4 heq
        simp only [Prod.mk.injEq] at heq
        obtain ⟨h1, h2⟩ := heq
        subst h2
        rw [h1]
        simpa [committedWorld, markedConfig, ClientConfig.secretKey, ClientConfig.key]
          using InitOutcome.restConfigFailed sec e hs hfound2
      · rename_i rc w4 heq
        simp only [Prod.mk.injEq] at heq
        obtain ⟨h1, h2⟩ := heq
        subst h2
        rw [h1]
        dsimp only
        split
        · rename_i e w5 heq
          simp only [Prod.mk.injEq] at heq
          obtain ⟨h3, h4⟩ := heq
          subst h4
          rw [h3]
          simpa [committedWorld, markedConfig, ClientConfig.secretKey, ClientConfig.key]
            using InitOutcome.clusterNewFailed sec rc e hs hfound2
        · rename_i c w5 heq
          simp only [Prod.mk.injEq] at heq
          obtain ⟨h3, h4⟩ := heq
          subst h4
          rw [h3]
          dsimp only
          split
          · rename_i e w7 heq
            simp only [Prod.mk.injEq] at heq
            obtain ⟨h5, h6⟩ := heq
            subst h6
            rw [h5]
            simpa [committedWorld, markedConfig, ClientConfig.secretKey, ClientConfig.key]
              using InitOutcome.mgrAddFailed sec rc c e hs hfound2
          · rename_i w7 heq
            simp only [Prod.mk.injEq] at heq
            obtain ⟨h5, h6⟩ := heq
            subst h6
            rw [h5]
            simpa [committedWorld, markedConfig, ClientConfig.secretKey, ClientConfig.key]
              using InitOutcome.done sec rc c hs hfound2
    · have hw := update_error env _ wb _ e hu
      subst hw
      simpa [World.record, markedConfig] using InitOutcome.updateFailed sec e hs

/-! ## The bootstrap loop and the listing -/

theorem initLoop_spec (env : Env) (namespaces : List String) :
    ∀ (cfgs : List ClientConfig) (acc : List Cluster) (w : World),
      (∃ cs, (initLoop env namespaces cfgs acc w).1 = (some (acc ++ cs), none) ∧
        InitChain env namespaces cfgs cs w (initLoop env namespaces cfgs acc w).2) ∨
      (∃ e done cCfg todo cs wm,
        cfgs = done ++ cCfg :: todo ∧
        InitChain env namespaces done cs w wm ∧
        InitOutcome env wm cCfg namespaces (Except.error e)
          (initLoop env namespaces cfgs acc w).2 ∧
        (initLoop env namespaces cfgs acc w).1 = (none, some e)) := by
  intro cfgs
  induction cfgs with
  | nil =>
    intro acc w
    left
    exact ⟨[], by simp [initLoop], by simpa [initLoop] using InitChain.nil w⟩
  | cons cCfg rest ih =>
    intro acc w
    have hout := initAdditionalClusterConfig_outcome env w cCfg namespaces
    rcases hstep : initAdditionalClusterConfig env w cCfg namespaces with ⟨e | c, w1⟩
    · right
      rw [hstep] at hout
      refine ⟨e, [], cCfg, rest, [], w, by simp, InitChain.nil w, ?_, ?_⟩
      · simpa [initLoop, hstep] using hout
      · simp [initLoop, hstep]
    · rw [hstep] at hout
      have hloop : initLoop env namespaces (cCfg :: rest) acc w =
          initLoop env namespaces rest (acc ++ [c]) w1 := by
        simp [initLoop, hstep]
      rw [hloop]
      rcases ih (acc ++ [c]) w1 with ⟨cs, h1, h2⟩ | ⟨e, done, d, todo, cs, wm, h1, h2, h3, h4⟩
      · left
        exact ⟨c :: cs, by simpa using h1, InitChain.cons hout h2⟩
      · right
        exact ⟨e, cCfg :: done, d, todo, c :: cs, wm, by simp [h1], InitChain.cons hout h2, h3, h4⟩

theorem NoFailure.append {a b : List Event} (ha : NoFailure a) (hb : NoFailure b) :
    NoFailure (a ++ b) := by
  intro x hx
  rcases List.mem_append.mp hx with h | h
  · exact ha x h
  · exact hb x h

theorem FailsLast.append_left {a b : List Event} {e : Err} (ha : NoFailure a)
    (hb : FailsLast b e) : FailsLast (a ++ b) e := by
  obtain ⟨good, ev, h1, h2, h3⟩ := hb
  exact ⟨a ++ good, ev, by simp [h1], h2, ha.append h3⟩

theorem listNamespaces_spec (env : Env) :
    ∀ (namespaces : List String) (acc : List ClientConfig) (w : World),
      ∃ evs, (listNamespaces env namespaces acc w).2.2 = { w with trace := w.trace ++ evs } ∧
        (((listNamespaces env namespaces acc w).1 = none ∧
            (listNamespaces env namespaces acc w).2.1 =
              acc ++ (namespaces.map w.store.listClientConfigs).flatten ∧
            NoFailure evs) ∨
          (∃ e, (listNamespaces env namespaces acc w).1 = some e ∧ FailsLast evs e)) := by
  intro namespaces
  induction namespaces with
  | nil =>
    intro acc w
    exact ⟨[], by simp [listNamespaces], Or.inl ⟨by simp [listNamespaces],
      by simp [listNamespaces], by simp [NoFailure]⟩⟩
  | cons ns rest ih =>
    intro acc w
    cases hf : env.listFault w ns with
    | some e =>
      refine ⟨[Event.list ns (some e)], ?_, Or.inr ⟨e, ?_, ?_⟩⟩
      · simp [listNamespaces, listClientConfigs, hf, World.record, errOf]
      · simp [listNamespaces, listClientConfigs, hf]
      · exact ⟨[], _, rfl, rfl, by simp [NoFailure]⟩
    | none =>
      have hstep : listNamespaces env (ns :: rest) acc w =
          listNamespaces env rest (acc ++ w.store.listClientConfigs ns)
            (w.record (Event.list ns none)) := by
        simp [listNamespaces, listClientConfigs, hf, errOf]
      rw [hstep]
      obtain ⟨evs, hw, hcase⟩ := ih (acc ++ w.store.listClientConfigs ns)
        (w.record (Event.list ns none))
      have hgood : NoFailure [Event.list ns none] := by simp [NoFailure, Event.failure]
      refine ⟨Event.list ns none :: evs, ?_, ?_⟩
      · rw [hw]; simp [World.record]
      · rcases hcase with ⟨h1, h2, h3⟩ | ⟨e, h1, h2⟩
        · left
          refine ⟨h1, ?_, ?_⟩
          · rw [h2]; simp [World.record]
          · exact hgood.append h3
        · right
          exact ⟨e, h1, FailsLast.append_left hgood h2⟩

theorem listNamespaces_onlyLists (env : Env) :
    ∀ (namespaces : List String) (acc : List ClientConfig) (w : World),
      ∃ evs, (listNamespaces env namespaces acc w).2.2.trace = w.trace ++ evs ∧
        OnlyLists evs := by
  intro namespaces
  induction namespaces with
  | nil =>
    intro acc w
    exact ⟨[], by simp [listNamespaces], by simp [OnlyLists]⟩
  | cons ns rest ih =>
    intro acc w
    cases hf : env.listFault w ns with
    | some e =>
      exact ⟨[Event.list ns (some e)],
        by simp [listNamespaces, listClientConfigs, hf, World.record, errOf],
        by simp [OnlyLists]⟩
    | none =>
      have hstep : listNamespaces env (ns :: rest) acc w =
          listNamespaces env rest (acc ++ w.store.listClientConfigs ns)
            (w.record (Event.list ns none)) := by
        simp [listNamespaces, listClientConfigs, hf, errOf]
      rw [hstep]
      obtain ⟨evs, hw, hl⟩ := ih (acc ++ w.store.listClientConfigs ns)
        (w.record (Event.list ns none))
      refine ⟨Event.list ns none :: evs, by rw [hw]; simp [World.record], ?_⟩
      intro x hx
      rcases List.mem_cons.mp hx with h | h
      · exact ⟨ns, none, h⟩
      · exact hl x h

theorem gatherClientConfigs_onlyLists (env : Env) (w : World) (watchNamespace : String) :
    ∃ evs, (gatherClientConfigs env w watchNamespace).2.2.trace = w.trace ++ evs ∧
      OnlyLists evs := by
  by_cases hns : watchNamespace = ""
  · subst hns
    cases hf : env.listFault w "" with
    | some e =>
      exact ⟨[Event.list "" (some e)],
        by simp [gatherClientConfigs, listClientConfigs, hf, World.record, errOf],
        by simp [OnlyLists]⟩
    | none =>
      exact ⟨[Event.list "" none],
        by simp [gatherClientConfigs, listClientConfigs, hf, World.record, errOf],
        by simp [OnlyLists]⟩
  · have hg : gatherClientConfigs env w watchNamespace =
        listNamespaces env (watchedNamespaces watchNamespace) [] w := by
      simp [gatherClientConfigs, hns]
    rw [hg]
    exact listNamespaces_onlyLists env (watchedNamespaces watchNamespace) [] w

theorem gatherClientConfigs_spec (env : Env) (w : World) (watchNamespace : String) :
    ∃ evs, (gatherClientConfigs env w watchNamespace).2.2 =
        { w with trace := w.trace ++ evs } ∧
      (((gatherClientConfigs env w watchNamespace).1 = none ∧
          (gatherClientConfigs env w watchNamespace).2.1 =
            listedClientConfigs w.store watchNamespace ∧
          NoFailure evs) ∨
        (∃ e, (gatherClientConfigs env w watchNamespace).1 = some e ∧ FailsLast evs e)) := by
  by_cases hns : watchNamespace = ""
  · subst hns
    cases hf : env.listFault w "" with
    | some e =>
      refine ⟨[Event.list "" (some e)], ?_, Or.inr ⟨e, ?_, ?_⟩⟩
      · simp [gatherClientConfigs, listClientConfigs, hf, World.record, errOf]
      · simp [gatherClientConfigs, listClientConfigs, hf]
      · exact ⟨[], _, rfl, rfl, by simp [NoFailure]⟩
    | none =>
      refine ⟨[Event.list "" none], ?_, Or.inl ⟨?_, ?_, ?_⟩⟩
      · simp [gatherClientConfigs, listClientConfigs, hf, World.record, errOf]
      · simp [gatherClientConfigs, listClientConfigs, hf]
      · simp [gatherClientConfigs, listClientConfigs, hf, listedClientConfigs]
      · simp [NoFailure, Event.failure]
  · have hg : gatherClientConfigs env w watchNamespace =
        listNamespaces env (watchedNamespaces watchNamespace) [] w := by
      simp [gatherClientConfigs, hns]
    rw [hg]
    obtain ⟨evs, hw, hcase⟩ := listNamespaces_spec env (watchedNamespaces watchNamespace) [] w
    refine ⟨evs, hw, ?_⟩
    rcases hcase with ⟨h1, h2, h3⟩ | h
    · left
      exact ⟨h1, by simp [h2, listedClientConfigs, hns], h3⟩
    · exact Or.inr h

theorem constructedIn.mono {env : Env} {namespaces : List String} {evs evs1 : List Event}
    {cCfg : ClientConfig} {c : Cluster} (hsub : ∀ x ∈ evs, x ∈ evs1)
    (h : constructedIn env namespaces evs cCfg c) :
    constructedIn env namespaces evs1 cCfg c := by
  obtain ⟨sec, rc, h1, h2, h3⟩ := h
  exact ⟨sec, rc, hsub _ h1, hsub _ h2, hsub _ h3⟩

theorem InitOutcome.trace_error {env : Env} {w w1 : World} {cCfg : ClientConfig}
    {namespaces : List String} {e : Err}
    (h : InitOutcome env w cCfg namespaces (Except.error e) w1) :
    ∃ evs, w1.trace = w.trace ++ evs ∧ FailsLast evs e := by
  cases h with
  | secretFailed =>
    exact ⟨[_], rfl, [], _, rfl, rfl, by simp [NoFailure]⟩
  | updateFailed sec _ hs =>
    exact ⟨[_, _], rfl, [_], _, rfl, rfl, by simp [NoFailure, Event.failure]⟩
  | restConfigFailed sec _ hs hc =>
    exact ⟨[_, _, _], rfl, [_, _], _, rfl, rfl, by simp [NoFailure, Event.failure]⟩
  | clusterNewFailed sec rc _ hs hc =>
    exact ⟨[_, _, _, _], rfl, [_, _, _], _, rfl, rfl,
      by simp [NoFailure, Event.failure, errOf]⟩
  | mgrAddFailed sec rc c _ hs hc =>
    exact ⟨[_, _, _, _, _, _], rfl, [_, _, _, _, _], _, rfl, rfl,
      by simp [NoFailure, Event.failure, errOf]⟩

theorem InitOutcome.trace_ok {env : Env} {w w1 : World} {cCfg : ClientConfig}
    {namespaces : List String} {c : Cluster}
    (h : InitOutcome env w cCfg namespaces (Except.ok c) w1) :
    ∃ evs, w1.trace = w.trace ++ evs ∧ NoFailure evs ∧
      constructedIn env namespaces evs cCfg c := by
  cases h with
  | done sec rc _ hs hc =>
    refine ⟨[_, _, _, _, _, _], rfl, by simp [NoFailure, Event.failure, errOf], sec, rc, ?_, ?_, ?_⟩
      <;> simp

theorem InitChain.trace {env : Env} {namespaces : List String} {cfgs : List ClientConfig}
    {cs : List Cluster} {w w2 : World} (h : InitChain env namespaces cfgs cs w w2) :
    ∃ evs, w2.trace = w.trace ++ evs ∧ NoFailure evs ∧
      List.Forall₂ (constructedIn env namespaces evs) cfgs cs := by
  induction h with
  | nil w => exact ⟨[], by simp, by simp [NoFailure], List.Forall₂.nil⟩
  | cons hstep _ ih =>
    obtain ⟨evs1, ht1, hn1, hc1⟩ := hstep.trace_ok
    obtain ⟨evs2, ht2, hn2, hc2⟩ := ih
    refine ⟨evs1 ++ evs2, by rw [ht2, ht1, List.append_assoc], hn1.append hn2, ?_⟩
    refine List.Forall₂.cons (hc1.mono (fun x hx => List.mem_append_left _ hx)) ?_
    exact hc2.imp (fun _ _ hab => hab.mono (fun x hx => List.mem_append_right _ hx))

/-- The three ways `InitClientConfigs` can end: a `List` failed; every listed
ClientConfig was initialized; or the initialization of one of them failed
after all the earlier ones had succeeded. -/
theorem InitClientConfigs_spec (env : Env) (w : World) (watchNamespace : String) :
    (∃ e evs, InitClientConfigs env w watchNamespace =
        ((none, some e), { w with trace := w.trace ++ evs }) ∧ FailsLast evs e) ∨
    (∃ evs0 cs, (NoFailure evs0 ∧ OnlyLists evs0) ∧
      (InitClientConfigs env w watchNamespace).1 = (some cs, none) ∧
      InitChain env (watchedNamespaces watchNamespace)
        (listedClientConfigs w.store watchNamespace) cs (bootWorld w evs0)
        (InitClientConfigs env w watchNamespace).2) ∨
    (∃ evs0 e done cCfg todo cs wm, (NoFailure evs0 ∧ OnlyLists evs0) ∧
      listedClientConfigs w.store watchNamespace = done ++ cCfg :: todo ∧
      InitChain env (watchedNamespaces watchNamespace) done cs (bootWorld w evs0) wm ∧
      InitOutcome env wm cCfg (watchedNamespaces watchNamespace) (Except.error e)
        (InitClientConfigs env w watchNamespace).2 ∧
      (InitClientConfigs env w watchNamespace).1 = (none, some e)) := by
  obtain ⟨evs0, hw, hcase⟩ := gatherClientConfigs_spec env w watchNamespace
  have hlists : OnlyLists evs0 := by
    obtain ⟨evs1, ht, hl⟩ := gatherClientConfigs_onlyLists env w watchNamespace
    rw [hw] at ht
    simp only [List.append_cancel_left_eq] at ht
    rw [ht]
    exact hl
  rcases hg : gatherClientConfigs env w watchNamespace with ⟨err, cfgs, w1⟩
  rw [hg] at hw hcase
  simp only at hw hcase
  subst hw
  rcases hcase with ⟨h1, h2, h3⟩ | ⟨e, h1, h2⟩
  · subst h1 h2
    have hinit : InitClientConfigs env w watchNamespace =
        initLoop env (watchedNamespaces watchNamespace)
          (listedClientConfigs w.store watchNamespace) [] (bootWorld w evs0) := by
      simp [InitClientConfigs, hg, bootWorld]
    rw [hinit]
    rcases initLoop_spec env (watchedNamespaces watchNamespace)
        (listedClientConfigs w.store watchNamespace) [] (bootWorld w evs0) with
      ⟨cs, hr, hchain⟩ | ⟨e, done, cCfg, todo, cs, wm, hsplit, hchain, hout, hr⟩
    · right; left
      exact ⟨evs0, cs, ⟨h3, hlists⟩, by simpa using hr, hchain⟩
    · right; right
      exact ⟨evs0, e, done, cCfg, todo, cs, wm, ⟨h3, hlists⟩, hsplit, hchain, hout, hr⟩
  · subst h1
    left
    exact ⟨e, evs0, by simp [InitClientConfigs, hg], h2⟩

theorem FailsLast.unique {evs : List Event} {e : Err} (h : FailsLast evs e) :
    ∀ (pre : List Event) (ev : Event) (post : List Event) (e1 : Err),
      evs = pre ++ ev :: post → ev.failure = some e1 → post = [] ∧ e1 = e := by
  obtain ⟨good, x, hevs, hx, hgood⟩ := h
  subst hevs
  induction good with
  | nil =>
    intro pre ev post e1 hsplit hev
    cases pre with
    | nil =>
      simp only [List.nil_append, List.cons.injEq] at hsplit
      obtain ⟨h1, h2⟩ := hsplit
      subst h1
      rw [hx] at hev
      exact ⟨h2.symm, (Option.some.inj hev).symm⟩
    | cons p pre => simp at hsplit
  | cons g good ih =>
    intro pre ev post e1 hsplit hev
    cases pre with
    | nil =>
      simp only [List.nil_append, List.cons_append, List.cons.injEq] at hsplit
      have hg := hgood g (List.mem_cons_self _ _)
      rw [hsplit.1, hev] at hg
      exact absurd hg (by simp)
    | cons p pre =>
      simp only [List.cons_append, List.cons.injEq] at hsplit
      exact ih (fun y hy => hgood y (List.mem_cons_of_mem _ hy)) pre ev post e1 hsplit.2 hev

theorem NoFailure.not_failed {evs : List Event} (h : NoFailure evs)
    (pre : List Event) (ev : Event) (post : List Event) (e1 : Err)
    (hsplit : evs = pre ++ ev :: post) (hev : ev.failure = some e1) : False := by
  have hmem : ev ∈ evs := by rw [hsplit]; simp
  have := h ev hmem
  rw [hev] at this
  exact absurd this (by simp)

theorem FailsLast.not_noFailure {evs : List Event} {e : Err} (h : FailsLast evs e)
    (hn : NoFailure evs) : False := by
  obtain ⟨good, x, hevs, hx, _⟩ := h
  exact hn.not_failed good x [] e hevs hx

/-- The calls of a whole bootstrap run and its result: either the run ended
with the first failed call and returned that error with a nil list, or no call
failed and one cluster was constructed per listed ClientConfig, in order. -/
theorem InitClientConfigs_trace (env : Env) (w : World) (watchNamespace : String) :
    (∃ e, FailsLast (eventsSince w (InitClientConfigs env w watchNamespace).2) e ∧
      (InitClientConfigs env w watchNamespace).1 = (none, some e)) ∨
    (NoFailure (eventsSince w (InitClientConfigs env w watchNamespace).2) ∧
      ∃ cs, (InitClientConfigs env w watchNamespace).1 = (some cs, none) ∧
        List.Forall₂
          (constructedIn env (watchedNamespaces watchNamespace)
            (eventsSince w (InitClientConfigs env w watchNamespace).2))
          (listedClientConfigs w.store watchNamespace) cs) := by
  rcases InitClientConfigs_spec env w watchNamespace with
    ⟨e, evs, hr, hf⟩ | ⟨evs0, cs, ⟨h0, _⟩, hr, hchain⟩ |
    ⟨evs0, e, done, cCfg, todo, cs, wm, ⟨h0, _⟩, hsplit, hchain, hout, hr⟩
  · left
    refine ⟨e, ?_, by rw [hr]⟩
    rw [hr, eventsSince_record w _ evs rfl]
    exact hf
  · right
    obtain ⟨evs, ht, hn, hc⟩ := hchain.trace
    have htr : (InitClientConfigs env w watchNamespace).2.trace = w.trace ++ (evs0 ++ evs) := by
      rw [ht]; simp [bootWorld]
    rw [eventsSince_record w _ _ htr]
    exact ⟨h0.append hn, cs, hr,
      hc.imp (fun _ _ hab => hab.mono (fun x hx => List.mem_append_right _ hx))⟩
  · left
    obtain ⟨evs, ht, hn, _⟩ := hchain.trace
    obtain ⟨evs1, ht1, hf1⟩ := hout.trace_error
    have htr : (InitClientConfigs env w watchNamespace).2.trace =
        w.trace ++ (evs0 ++ (evs ++ evs1)) := by
      rw [ht1, ht]; simp [bootWorld]
    rw [eventsSince_record w _ _ htr]
    exact ⟨e, FailsLast.append_left h0 (FailsLast.append_left hn hf1), hr⟩

/-- C6: bootstrap has no partial-success mode.  A failed call (List, Secret
fetch, Update, rest-config derivation, cluster construction, mgr.Add) is the
last call of the run, so no ClientConfig is processed after it, and
InitClientConfigs returns that error with a nil list; when no call fails it
returns a nil error and one constructed cluster per listed ClientConfig, in
listing order. -/
theorem InitClientConfigs_no_partial_success (env : Env) (w : World) (watchNamespace : String) :
    (∀ (pre : List Event) (ev : Event) (post : List Event) (e : Err),
      eventsSince w (InitClientConfigs env w watchNamespace).2 = pre ++ ev :: post →
      ev.failure = some e →
      post = [] ∧ (InitClientConfigs env w watchNamespace).1 = (none, some e)) ∧
    (NoFailure (eventsSince w (InitClientConfigs env w watchNamespace).2) →
      ∃ cs, (InitClientConfigs env w watchNamespace).1 = (some cs, none) ∧
        List.Forall₂
          (constructedIn env (watchedNamespaces watchNamespace)
            (eventsSince w (InitClientConfigs env w watchNamespace).2))
          (listedClientConfigs w.store watchNamespace) cs) := by
  rcases InitClientConfigs_trace env w watchNamespace with ⟨e, hf, hr⟩ | ⟨hn, hcs⟩
  · refine ⟨?_, fun hn => absurd hn (fun hn => hf.not_noFailure hn)⟩
    intro pre ev post e1 hsplit hev
    obtain ⟨h1, h2⟩ := hf.unique pre ev post e1 hsplit hev
    exact ⟨h1, by rw [hr, h2]⟩
  · exact ⟨fun pre ev post e1 hsplit hev => (hn.not_failed pre ev post e1 hsplit hev).elim,
      fun _ => hcs⟩

/-! ## Effects of Reconcile -/

theorem getClientConfig_snd (env : Env) (w : World) (k : NamespacedName) :
    (getClientConfig env w k).2 =
      w.record (Event.getClientConfig k (errOf (getClientConfig env w k).1)) := rfl

theorem calculateHashes_snd (env : Env) (w : World) (cCfg : ClientConfig) :
    (calculateHashes env w cCfg).2 =
      w.record (Event.getSecret cCfg.secretKey (errOf (calculateHashes env w cCfg).1)) := by
  rcases hc : calculateHashes env w cCfg with ⟨e | ⟨a, b⟩, w1⟩
  · exact calculateHashes_error env w w1 cCfg e hc
  · obtain ⟨_, _, _, _, hw⟩ := calculateHashes_ok env w w1 cCfg a b hc
    exact hw

/-- What any single run of Reconcile does to the world: it never touches the
store or the secret filter, and it either does not call the shutdown function
and leaves the cancellation state alone, or calls it exactly once and leaves
the context cancelled. -/
theorem Reconcile_effects (env : Env) (w : World) (req : Request) :
    (Reconcile env w req).2.store = w.store ∧
    (Reconcile env w req).2.secretFilter = w.secretFilter ∧
    ((Event.shutdown ∉ eventsSince w (Reconcile env w req).2 ∧
        (Reconcile env w req).2.cancelled = w.cancelled) ∨
      ((eventsSince w (Reconcile env w req).2).count Event.shutdown = 1 ∧
        (Reconcile env w req).2.cancelled = true)) := by
  unfold eventsSince Reconcile
  have hw1 := getClientConfig_snd env w req.NamespacedName
  rcases hg : getClientConfig env w req.NamespacedName with ⟨e | cc, w1⟩
  · rw [hg] at hw1
    simp only at hw1
    subst hw1
    cases e <;> simp [Err.IsNotFound, shutdownFunc, World.record, errOf]
  · rw [hg] at hw1
    simp only at hw1
    subst hw1
    dsimp only
    split
    · simp [shutdownFunc, World.record, errOf]
    · have hw2 := calculateHashes_snd env
        (w.record (Event.getClientConfig req.NamespacedName (errOf (Except.ok cc)))) cc
      rcases hc : calculateHashes env
        (w.record (Event.getClientConfig req.NamespacedName (errOf (Except.ok cc)))) cc
        with ⟨e | ⟨a, b⟩, w2⟩
      · rw [hc] at hw2
        simp only at hw2
        subst hw2
        cases e <;> simp [Err.IsNotFound, shutdownFunc, World.record, errOf]
      · rw [hc] at hw2
        simp only at hw2
        subst hw2
        dsimp only
        split <;> simp [shutdownFunc, World.record, errOf]

/-- C7: a transient fetch error (a Get failing with an error other than
NotFound) is returned unchanged by Reconcile, and the shutdown function is not
invoked. -/
theorem Reconcile_propagates_transient_error (env : Env) (w : World) (req : Request) (e : Err)
    (h : transientFetchError env w req e) :
    (Reconcile env w req).1 = (Result.empty, some e) ∧
    e.IsNotFound = false ∧
    Event.shutdown ∉ eventsSince w (Reconcile env w req).2 ∧
    (Reconcile env w req).2.cancelled = w.cancelled := by
  unfold eventsSince
  rcases h with ⟨msg, hf, he⟩ | ⟨cc, msg, hf, hfind, h1, h2, hs, he⟩
  · subst he
    simp [Reconcile, getClientConfig, hf, Err.IsNotFound, World.record, errOf]
  · subst he
    simp only [World.record, ClientConfig.secretKey] at hs
    simp [Reconcile, getClientConfig, calculateHashes, getSecret, hf, hfind, h1, h2, hs,
      Err.IsNotFound, World.record, errOf]

/-- C8: a single run of Reconcile invokes the shutdown function at most
once; and when a run requests shutdown, a second run on the same key against
the world the first one left has the same observable effect as the first
alone: the context is cancelled, as after the first run, and store and secret
filter are untouched. -/
theorem Reconcile_shutdown_idempotent (env : Env) (w : World) (req : Request) :
    (eventsSince w (Reconcile env w req).2).count Event.shutdown ≤ 1 ∧
    (Event.shutdown ∈ eventsSince w (Reconcile env w req).2 →
      (eventsSince w (Reconcile env w req).2).count Event.shutdown = 1 ∧
      (Reconcile env w req).2.cancelled = true ∧
      (Reconcile env (Reconcile env w req).2 req).2.cancelled =
        (Reconcile env w req).2.cancelled ∧
      (Reconcile env (Reconcile env w req).2 req).2.store = w.store ∧
      (Reconcile env (Reconcile env w req).2 req).2.secretFilter = w.secretFilter) := by
  obtain ⟨hs1, hf1, hc1⟩ := Reconcile_effects env w req
  obtain ⟨hs2, hf2, hc2⟩ := Reconcile_effects env (Reconcile env w req).2 req
  constructor
  · rcases hc1 with ⟨hno, _⟩ | ⟨hone, _⟩
    · rw [List.count_eq_zero_of_not_mem hno]
      exact Nat.zero_le 1
    · exact Nat.le_of_eq hone
  · intro h
    have hfirst : (eventsSince w (Reconcile env w req).2).count Event.shutdown = 1 ∧
        (Reconcile env w req).2.cancelled = true := by
      rcases hc1 with ⟨hno, _⟩ | hyes
      · exact absurd h hno
      · exact hyes
    refine ⟨hfirst.1, hfirst.2, ?_, by rw [hs2, hs1], by rw [hf2, hf1]⟩
    rcases hc2 with ⟨_, hsame⟩ | ⟨_, htrue⟩
    · exact hsame
    · rw [htrue, hfirst.2]

/-! ## Maps, stores and the committed markers -/

theorem mapGet_mapSet_self {κ ν : Type} [DecidableEq κ] (k : κ) (v : ν) (m : List (κ × ν)) :
    mapGet k (mapSet k v m) = some v := by
  induction m with
  | nil => simp [mapSet, mapGet]
  | cons p m ih =>
    obtain ⟨k1, v1⟩ := p
    by_cases hk : k1 = k
    · simp [mapSet, mapGet, hk]
    · simp [mapSet, mapGet, hk, ih]

theorem mapGet_mapSet_ne {κ ν : Type} [DecidableEq κ] (k k1 : κ) (v : ν) (m : List (κ × ν))
    (hne : k1 ≠ k) : mapGet k (mapSet k1 v m) = mapGet k m := by
  induction m with
  | nil => simp [mapSet, mapGet, hne]
  | cons p m ih =>
    obtain ⟨k2, v2⟩ := p
    by_cases hk : k2 = k1
    · subst hk
      simp [mapSet, mapGet, hne]
    · by_cases hk2 : k2 = k
      · subst hk2
        simp [mapSet, mapGet, hk]
      · simp [mapSet, mapGet, hk, hk2, ih]

theorem markedConfig_key (env : Env) (cCfg : ClientConfig) (sec : Secret) :
    (markedConfig env cCfg sec).key = cCfg.key := rfl

theorem markedConfig_secretKey (env : Env) (cCfg : ClientConfig) (sec : Secret) :
    (markedConfig env cCfg sec).secretKey = cCfg.secretKey := rfl

theorem markedConfig_Spec (env : Env) (cCfg : ClientConfig) (sec : Secret) :
    (markedConfig env cCfg sec).Spec = cCfg.Spec := rfl

theorem markedConfig_has_secret_hash (env : Env) (cCfg : ClientConfig) (sec : Secret) :
    HasAnnotation (markedConfig env cCfg sec) KubeSecretHashAnnotation = true := by
  simp [ HasAnnotation, markedConfig, SetMetaDataAnnotation, mapGet_mapSet_self]

theorem markedConfig_has_config_hash (env : Env) (cCfg : ClientConfig) (sec : Secret) :
    HasAnnotation (markedConfig env cCfg sec) env.ClientConfigHashAnnotation = true := by
  by_cases hk : KubeSecretHashAnnotation = env.ClientConfigHashAnnotation
  · rw [← hk]
    exact markedConfig_has_secret_hash env cCfg sec
  · simp [ HasAnnotation, markedConfig, SetMetaDataAnnotation, mapGet_mapSet_ne _ _ _ _ hk,
      mapGet_mapSet_self]

theorem markedConfig_secret_hash (env : Env) (cCfg : ClientConfig) (sec : Secret) :
    annotationValue (markedConfig env cCfg sec) KubeSecretHashAnnotation =
      env.hashData sec.Data := by
  simp [annotationValue, markedConfig, SetMetaDataAnnotation, mapGet_mapSet_self]

theorem markedConfig_config_hash (env : Env) (cCfg : ClientConfig) (sec : Secret)
    (hk : env.ClientConfigHashAnnotation ≠ KubeSecretHashAnnotation) :
    annotationValue (markedConfig env cCfg sec) env.ClientConfigHashAnnotation =
      env.hashSpec cCfg.Spec := by
  simp [annotationValue, markedConfig, SetMetaDataAnnotation,
    mapGet_mapSet_ne _ _ _ _ (Ne.symm hk), mapGet_mapSet_self]

theorem findSecret_replaceClientConfig (s : Store) (obj : ClientConfig) (k : NamespacedName) :
    (s.replaceClientConfig obj).findSecret k = s.findSecret k := rfl

theorem findClientConfig_replace_self (s : Store) (obj : ClientConfig)
    (h : (s.findClientConfig obj.key).isSome = true) :
    (s.replaceClientConfig obj).findClientConfig obj.key = some obj := by
  obtain ⟨cfgs, secs⟩ := s
  simp only [Store.findClientConfig, Store.replaceClientConfig, ClientConfig.key] at *
  induction cfgs with
  | nil => simp at h
  | cons c cfgs ih =>
    by_cases hc : c.Namespace = obj.Namespace ∧ c.Name = obj.Name
    · simp [List.find?, hc]
    · have hc2 : decide (c.Namespace = obj.Namespace ∧ c.Name = obj.Name) = false := by
        simpa using hc
      simp only [List.find?, hc2] at h
      simp only [List.map, hc, if_false, List.find?, hc2]
      exact ih h

theorem findClientConfig_replace_ne (s : Store) (obj : ClientConfig) (k : NamespacedName)
    (hne : k ≠ obj.key) :
    (s.replaceClientConfig obj).findClientConfig k = s.findClientConfig k := by
  obtain ⟨cfgs, secs⟩ := s
  have hobj : decide (obj.Namespace = k.Namespace ∧ obj.Name = k.Name) = false := by
    simp only [decide_eq_false_iff_not]
    rintro ⟨h1, h2⟩
    apply hne
    cases k
    simp_all [ClientConfig.key]
  simp only [Store.findClientConfig, Store.replaceClientConfig]
  induction cfgs with
  | nil => simp
  | cons c cfgs ih =>
    by_cases hc : c.Namespace = obj.Namespace ∧ c.Name = obj.Name
    · have hck : decide (c.Namespace = k.Namespace ∧ c.Name = k.Name) = false := by
        rw [hc.1, hc.2]; exact hobj
      simp only [List.map, hc, and_self, if_true, List.find?, hobj, hck]
      exact ih
    · simp only [List.map, hc, if_false, List.find?]
      cases decide (c.Namespace = k.Namespace ∧ c.Name = k.Name) with
      | true => rfl
      | false => exact ih

/-! ## Order of the calls within one initialization -/

theorem precededBy_none {P : Event → Prop} {Q : Event → Bool} {l : List Event}
    (h : ∀ x ∈ l, Q x = false) : PrecededBy P Q l := by
  intro pre ev post hsplit hq
  have hmem : ev ∈ l := by rw [hsplit]; simp
  rw [h ev hmem] at hq
  exact absurd hq (by simp)

theorem precededBy_cons_skip {P : Event → Prop} {Q : Event → Bool} {a : Event}
    {l : List Event} (hQ : Q a = false) (h : PrecededBy P Q l) : PrecededBy P Q (a :: l) := by
  intro pre ev post hsplit hq
  cases pre with
  | nil =>
    simp only [List.nil_append, List.cons.injEq] at hsplit
    rw [← hsplit.1, hQ] at hq
    exact absurd hq (by simp)
  | cons p pre =>
    simp only [List.cons_append, List.cons.injEq] at hsplit
    obtain ⟨u, hu, hp⟩ := h pre ev post hsplit.2 hq
    exact ⟨u, List.mem_cons_of_mem _ hu, hp⟩

theorem precededBy_cons_of {P : Event → Prop} {Q : Event → Bool} {a : Event}
    {l : List Event} (hQ : Q a = false) (hP : P a) : PrecededBy P Q (a :: l) := by
  intro pre ev post hsplit hq
  cases pre with
  | nil =>
    simp only [List.nil_append, List.cons.injEq] at hsplit
    rw [← hsplit.1, hQ] at hq
    exact absurd hq (by simp)
  | cons p pre =>
    simp only [List.cons_append, List.cons.injEq] at hsplit
    exact ⟨a, by rw [hsplit.1]; exact List.mem_cons_self _ _, hP⟩

theorem isMarkerCommit_marked (env : Env) (cCfg : ClientConfig) (sec : Secret) :
    isMarkerCommit env cCfg (Event.update (markedConfig env cCfg sec) none) :=
  ⟨sec, rfl, markedConfig_has_config_hash env cCfg sec, markedConfig_has_secret_hash env cCfg sec⟩

/-- The calls of one initialization, whatever its outcome: a registration and
a construction call alike come after the Update that commits the markers. -/
theorem InitOutcome.commit_first {env : Env} {w w1 : World} {cCfg : ClientConfig}
    {namespaces : List String} {r : Except Err Cluster}
    (h : InitOutcome env w cCfg namespaces r w1) (Q : Event → Bool)
    (hget : ∀ k e, Q (Event.getSecret k e) = false)
    (hupd : ∀ o e, Q (Event.update o e) = false) :
    PrecededBy (isMarkerCommit env cCfg) Q (eventsSince w w1) := by
  cases h with
  | secretFailed e =>
    rw [eventsSince_record w _ _ rfl]
    exact precededBy_none (by simp [hget])
  | updateFailed sec e hs =>
    rw [eventsSince_record w _ _ rfl]
    exact precededBy_none (by simp [hget, hupd])
  | restConfigFailed sec e hs hc =>
    rw [eventsSince_record w _ _ rfl]
    exact precededBy_cons_skip (hget _ _)
      (precededBy_cons_of (hupd _ _) (isMarkerCommit_marked env cCfg sec))
  | clusterNewFailed sec rc e hs hc =>
    rw [eventsSince_record w _ _ rfl]
    exact precededBy_cons_skip (hget _ _)
      (precededBy_cons_of (hupd _ _) (isMarkerCommit_marked env cCfg sec))
  | mgrAddFailed sec rc c e hs hc =>
    rw [eventsSince_record w _ _ rfl]
    exact precededBy_cons_skip (hget _ _)
      (precededBy_cons_of (hupd _ _) (isMarkerCommit_marked env cCfg sec))
  | done sec rc c hs hc =>
    rw [eventsSince_record w _ _ rfl]
    exact precededBy_cons_skip (hget _ _)
      (precededBy_cons_of (hupd _ _) (isMarkerCommit_marked env cCfg sec))

/-- C2: in every initialization of a ClientConfig the Update that commits both
hash annotations comes before AddClient and mgr.Add; when that Update fails
neither is invoked; and when GetRestConfig or cluster.New fails the
initialization returns an error, the ClientConfig is persisted with both
markers, and neither AddClient nor mgr.Add has been invoked. -/
theorem markers_committed_before_registration (env : Env) (w : World) (cCfg : ClientConfig)
    (namespaces : List String) :
    PrecededBy (isMarkerCommit env cCfg) Event.isRegistration
      (eventsSince w (initAdditionalClusterConfig env w cCfg namespaces).2) ∧
    (∀ obj e,
      Event.update obj (some e) ∈
        eventsSince w (initAdditionalClusterConfig env w cCfg namespaces).2 →
      ∀ ev ∈ eventsSince w (initAdditionalClusterConfig env w cCfg namespaces).2,
        ev.isRegistration = false) ∧
    (∀ bad ∈ eventsSince w (initAdditionalClusterConfig env w cCfg namespaces).2,
      bad.isFailedConstruction = true →
      (∃ e, (initAdditionalClusterConfig env w cCfg namespaces).1 = Except.error e) ∧
      (∃ obj,
        (initAdditionalClusterConfig env w cCfg namespaces).2.store.findClientConfig cCfg.key =
          some obj ∧
        HasAnnotation obj env.ClientConfigHashAnnotation = true ∧
        HasAnnotation obj KubeSecretHashAnnotation = true) ∧
      ∀ ev ∈ eventsSince w (initAdditionalClusterConfig env w cCfg namespaces).2,
        ev.isRegistration = false) := by
  have hout := initAdditionalClusterConfig_outcome env w cCfg namespaces
  refine ⟨hout.commit_first Event.isRegistration (fun _ _ => rfl) (fun _ _ => rfl), ?_, ?_⟩
  · generalize initAdditionalClusterConfig env w cCfg namespaces = R at hout
    obtain ⟨r, w1⟩ := R
    cases hout <;> rw [eventsSince_record w _ _ rfl] <;>
      simp [Event.isRegistration]
  · generalize initAdditionalClusterConfig env w cCfg namespaces = R at hout
    obtain ⟨r, w1⟩ := R
    cases hout with
    | secretFailed e =>
      rw [eventsSince_record w _ _ rfl]; simp [Event.isFailedConstruction]
    | updateFailed sec e hs =>
      rw [eventsSince_record w _ _ rfl]; simp [Event.isFailedConstruction]
    | restConfigFailed sec e hs hc =>
      rw [eventsSince_record w _ _ rfl]
      intro bad _ _
      refine ⟨⟨e, rfl⟩, ⟨markedConfig env cCfg sec, ?_, markedConfig_has_config_hash env cCfg sec,
        markedConfig_has_secret_hash env cCfg sec⟩, by simp [Event.isRegistration]⟩
      exact findClientConfig_replace_self w.store (markedConfig env cCfg sec) hc
    | clusterNewFailed sec rc e hs hc =>
      rw [eventsSince_record w _ _ rfl]
      intro bad _ _
      refine ⟨⟨e, rfl⟩, ⟨markedConfig env cCfg sec, ?_, markedConfig_has_config_hash env cCfg sec,
        markedConfig_has_secret_hash env cCfg sec⟩, by simp [Event.isRegistration]⟩
      exact findClientConfig_replace_self w.store (markedConfig env cCfg sec) hc
    | mgrAddFailed sec rc c e hs hc =>
      rw [eventsSince_record w _ _ rfl]; simp [Event.isFailedConstruction]
    | done sec rc c hs hc =>
      rw [eventsSince_record w _ _ rfl]; simp [Event.isFailedConstruction]

/-- C9, as the code has it: in every initialization of a ClientConfig the
Update that commits both hash annotations comes before the rest config
derivation (GetRestConfig) and the cluster construction (cluster.New). -/
theorem markers_committed_before_construction (env : Env) (w : World) (cCfg : ClientConfig)
    (namespaces : List String) :
    PrecededBy (isMarkerCommit env cCfg) Event.isConstruction
      (eventsSince w (initAdditionalClusterConfig env w cCfg namespaces).2) :=
  (initAdditionalClusterConfig_outcome env w cCfg namespaces).commit_first
    Event.isConstruction (fun _ _ => rfl) (fun _ _ => rfl)

/-! ## The secret filter built by bootstrap -/

theorem InitOutcome.ok_world {env : Env} {w w1 : World} {cCfg : ClientConfig}
    {namespaces : List String} {c : Cluster}
    (h : InitOutcome env w cCfg namespaces (Except.ok c) w1) :
    ∃ sec rc, w.store.findSecret cCfg.secretKey = some sec ∧
      (w.store.findClientConfig cCfg.key).isSome = true ∧
      w1 = committedWorld env w cCfg sec
        [Event.getRestConfig (markedConfig env cCfg sec) (Except.ok rc),
         Event.clusterNew rc (clusterOptions env namespaces) (Except.ok c),
         Event.addClient (env.GetContextName (markedConfig env cCfg sec)) c.GetClient,
         Event.mgrAdd c none] := by
  cases h with
  | done sec rc _ hs hc => exact ⟨sec, rc, hs, hc, rfl⟩

theorem InitChain.secretFilter_eq {env : Env} {namespaces : List String}
    {cfgs : List ClientConfig} {cs : List Cluster} {w w2 : World}
    (h : InitChain env namespaces cfgs cs w w2) :
    w2.secretFilter = filterAfter cfgs w.secretFilter := by
  induction h with
  | nil w => rfl
  | cons hstep _ ih =>
    obtain ⟨sec, rc, _, _, hw⟩ := hstep.ok_world
    rw [ih, hw]
    rfl

theorem mapGet_filterAfter_not_mem (s : NamespacedName) :
    ∀ (cfgs : List ClientConfig) (m : List (NamespacedName × NamespacedName)),
      s ∉ cfgs.map ClientConfig.secretKey → mapGet s (filterAfter cfgs m) = mapGet s m := by
  intro cfgs
  induction cfgs with
  | nil => intro m _; rfl
  | cons c rest ih =>
    intro m hs
    simp only [List.map, List.mem_cons, not_or] at hs
    have hstep : filterAfter (c :: rest) m = filterAfter rest (mapSet c.secretKey c.key m) := rfl
    rw [hstep, ih _ hs.2, mapGet_mapSet_ne _ _ _ _ (Ne.symm hs.1)]

theorem mapGet_filterAfter_mem :
    ∀ (cfgs : List ClientConfig) (m : List (NamespacedName × NamespacedName)),
      (cfgs.map ClientConfig.secretKey).Nodup →
      ∀ cfg ∈ cfgs, mapGet cfg.secretKey (filterAfter cfgs m) = some cfg.key := by
  intro cfgs
  induction cfgs with
  | nil => intro m _ cfg hcfg; simp at hcfg
  | cons c rest ih =>
    intro m hnd cfg hcfg
    simp only [List.map, List.nodup_cons] at hnd
    have hstep : filterAfter (c :: rest) m = filterAfter rest (mapSet c.secretKey c.key m) := rfl
    rw [hstep]
    rcases List.mem_cons.mp hcfg with h | h
    · subst h
      rw [mapGet_filterAfter_not_mem _ _ _ hnd.1, mapGet_mapSet_self]
    · exact ih _ hnd.2 cfg h

/-- A successful bootstrap leaves in `r.secretFilter` exactly the entries of
the listed ClientConfigs, written in listing order into an empty map. -/
theorem InitClientConfigs_secretFilter (env : Env) (w : World) (watchNamespace : String)
    (hok : (InitClientConfigs env w watchNamespace).1.2 = none) :
    (InitClientConfigs env w watchNamespace).2.secretFilter =
      filterAfter (listedClientConfigs w.store watchNamespace) [] := by
  rcases InitClientConfigs_spec env w watchNamespace with
    ⟨e, evs, hr, hf⟩ | ⟨evs0, cs, _, hr, hchain⟩ |
    ⟨evs0, e, done, cCfg, todo, cs, wm, _, hsplit, hchain, hout, hr⟩
  · rw [hr] at hok; simp at hok
  · exact hchain.secretFilter_eq
  · rw [hr] at hok; simp at hok

/-- C5: after a successful bootstrap over ClientConfigs whose referenced
Secrets have pairwise distinct identities, the secret-event mapper returns for
the Secret of each listed ClientConfig exactly one request, naming that
ClientConfig, and the empty list for every Secret that none of them
references. -/
theorem toMatchingClientConfig_reverse_index (env : Env) (w : World) (watchNamespace : String)
    (hok : (InitClientConfigs env w watchNamespace).1.2 = none)
    (hdistinct :
      ((listedClientConfigs w.store watchNamespace).map ClientConfig.secretKey).Nodup) :
    (∀ cfg ∈ listedClientConfigs w.store watchNamespace, ∀ secret : Secret,
      secret.key = cfg.secretKey →
      toMatchingClientConfig (InitClientConfigs env w watchNamespace).2 secret =
        [{ NamespacedName := cfg.key }]) ∧
    (∀ secret : Secret,
      secret.key ∉ (listedClientConfigs w.store watchNamespace).map ClientConfig.secretKey →
      toMatchingClientConfig (InitClientConfigs env w watchNamespace).2 secret = []) := by
  have hfilter := InitClientConfigs_secretFilter env w watchNamespace hok
  constructor
  · intro cfg hcfg secret hkey
    have hget := mapGet_filterAfter_mem _ [] hdistinct cfg hcfg
    simp only [Secret.key] at hkey
    simp [toMatchingClientConfig, hfilter, hkey, hget]
  · intro secret hkey
    have hget := mapGet_filterAfter_not_mem secret.key _ [] hkey
    simp only [Secret.key] at hget
    simp [toMatchingClientConfig, hfilter, hget, mapGet]

theorem committedWorld_filter_entries (env : Env) (w : World) (cCfg : ClientConfig)
    (sec : Secret) (evs : List Event) (s k : NamespacedName)
    (h : mapGet s (committedWorld env w cCfg sec evs).secretFilter = some k) :
    mapGet s w.secretFilter = some k ∨ (cCfg.secretKey = s ∧ cCfg.key = k) := by
  simp only [committedWorld] at h
  by_cases hs : cCfg.secretKey = s
  · subst hs
    rw [mapGet_mapSet_self] at h
    exact Or.inr ⟨rfl, Option.some.inj h⟩
  · rw [mapGet_mapSet_ne _ _ _ _ hs] at h
    exact Or.inl h

theorem committedWorld_commit_mem (env : Env) (cCfg : ClientConfig)
    (sec : Secret) (evs : List Event) :
    ∃ u ∈ Event.getSecret cCfg.secretKey none ::
        Event.update (markedConfig env cCfg sec) none :: evs,
      isMarkerCommit env cCfg u :=
  ⟨_, by simp, isMarkerCommit_marked env cCfg sec⟩

/-- An entry found in the secret filter after one initialization was there
before, or is the entry of the initialized ClientConfig, whose markers the
initialization committed. -/
theorem InitOutcome.filter_entries {env : Env} {w w1 : World} {cCfg : ClientConfig}
    {namespaces : List String} {r : Except Err Cluster}
    (h : InitOutcome env w cCfg namespaces r w1) :
    ∃ evs, w1.trace = w.trace ++ evs ∧
      ∀ s k, mapGet s w1.secretFilter = some k →
        mapGet s w.secretFilter = some k ∨
        (cCfg.secretKey = s ∧ cCfg.key = k ∧ ∃ u ∈ evs, isMarkerCommit env cCfg u) := by
  cases h with
  | secretFailed e => exact ⟨_, rfl, fun s k hk => Or.inl hk⟩
  | updateFailed sec e hs => exact ⟨_, rfl, fun s k hk => Or.inl hk⟩
  | restConfigFailed sec e hs hc =>
    refine ⟨_, rfl, fun s k hk => ?_⟩
    rcases committedWorld_filter_entries env w cCfg sec _ s k hk with h1 | ⟨h1, h2⟩
    · exact Or.inl h1
    · exact Or.inr ⟨h1, h2, committedWorld_commit_mem env cCfg sec _⟩
  | clusterNewFailed sec rc e hs hc =>
    refine ⟨_, rfl, fun s k hk => ?_⟩
    rcases committedWorld_filter_entries env w cCfg sec _ s k hk with h1 | ⟨h1, h2⟩
    · exact Or.inl h1
    · exact Or.inr ⟨h1, h2, committedWorld_commit_mem env cCfg sec _⟩
  | mgrAddFailed sec rc c e hs hc =>
    refine ⟨_, rfl, fun s k hk => ?_⟩
    rcases committedWorld_filter_entries env w cCfg sec _ s k hk with h1 | ⟨h1, h2⟩
    · exact Or.inl h1
    · exact Or.inr ⟨h1, h2, committedWorld_commit_mem env cCfg sec _⟩
  | done sec rc c hs hc =>
    refine ⟨_, rfl, fun s k hk => ?_⟩
    rcases committedWorld_filter_entries env w cCfg sec _ s k hk with h1 | ⟨h1, h2⟩
    · exact Or.inl h1
    · exact Or.inr ⟨h1, h2, committedWorld_commit_mem env cCfg sec _⟩

theorem InitChain.chain_filter_entries {env : Env} {namespaces : List String}
    {cfgs : List ClientConfig} {cs : List Cluster} {w w2 : World}
    (h : InitChain env namespaces cfgs cs w w2) :
    ∃ evs, w2.trace = w.trace ++ evs ∧
      ∀ s k, mapGet s w2.secretFilter = some k →
        mapGet s w.secretFilter = some k ∨
        ∃ cfg ∈ cfgs, cfg.secretKey = s ∧ cfg.key = k ∧
          ∃ u ∈ evs, isMarkerCommit env cfg u := by
  induction h with
  | nil w => exact ⟨[], by simp, fun s k hk => Or.inl hk⟩
  | @cons cCfg rest c cs w w1 w2 hstep _ ih =>
    obtain ⟨evs1, ht1, he1⟩ := hstep.filter_entries
    obtain ⟨evs2, ht2, he2⟩ := ih
    refine ⟨evs1 ++ evs2, by rw [ht2, ht1, List.append_assoc], fun s k hk => ?_⟩
    rcases he2 s k hk with h1 | ⟨cfg, hcfg, hs, hkk, u, hu, hcommit⟩
    · rcases he1 s k h1 with h0 | ⟨hs, hkk, u, hu, hcommit⟩
      · exact Or.inl h0
      · exact Or.inr ⟨cCfg, List.mem_cons_self _ _, hs, hkk, u,
          List.mem_append_left _ hu, hcommit⟩
    · exact Or.inr ⟨cfg, List.mem_cons_of_mem _ hcfg, hs, hkk, u,
        List.mem_append_right _ hu, hcommit⟩

/-- C4, as the code has it: when bootstrap starts with an empty secret
filter, every entry present in `r.secretFilter` after InitClientConfigs, also
after a run that returned an error, is the entry secret-identity to
config-identity of a listed ClientConfig whose hash annotations were committed
by a successful Update during that run. -/
theorem secretFilter_entries_committed (env : Env) (w : World) (watchNamespace : String)
    (h0 : w.secretFilter = []) (s k : NamespacedName)
    (hentry : mapGet s (InitClientConfigs env w watchNamespace).2.secretFilter = some k) :
    ∃ cfg ∈ listedClientConfigs w.store watchNamespace,
      cfg.secretKey = s ∧ cfg.key = k ∧
      ∃ u ∈ eventsSince w (InitClientConfigs env w watchNamespace).2,
        isMarkerCommit env cfg u := by
  rcases InitClientConfigs_spec env w watchNamespace with
    ⟨e, evs, hr, hf⟩ | ⟨evs0, cs, _, hr, hchain⟩ |
    ⟨evs0, e, done, cCfg, todo, cs, wm, _, hsplit, hchain, hout, hr⟩
  · rw [hr] at hentry
    simp [h0, mapGet] at hentry
  · obtain ⟨evs, ht, he⟩ := hchain.chain_filter_entries
    have htr : (InitClientConfigs env w watchNamespace).2.trace = w.trace ++ (evs0 ++ evs) := by
      rw [ht]; simp [bootWorld]
    rw [eventsSince_record w _ _ htr]
    rcases he s k hentry with h1 | ⟨cfg, hcfg, hs, hkk, u, hu, hcommit⟩
    · simp [bootWorld, mapGet] at h1
    · exact ⟨cfg, hcfg, hs, hkk, u, List.mem_append_right _ hu, hcommit⟩
  · obtain ⟨evs, ht, he⟩ := hchain.chain_filter_entries
    obtain ⟨evs1, ht1, he1⟩ := hout.filter_entries
    have htr : (InitClientConfigs env w watchNamespace).2.trace =
        w.trace ++ (evs0 ++ (evs ++ evs1)) := by
      rw [ht1, ht]; simp [bootWorld]
    rw [eventsSince_record w _ _ htr, hsplit]
    rcases he1 s k hentry with h1 | ⟨hs, hkk, u, hu, hcommit⟩
    · rcases he s k h1 with h2 | ⟨cfg, hcfg, hs, hkk, u, hu, hcommit⟩
      · simp [bootWorld, mapGet] at h2
      · exact ⟨cfg, List.mem_append_left _ hcfg, hs, hkk, u,
          List.mem_append_right _ (List.mem_append_left _ hu), hcommit⟩
    · exact ⟨cCfg, by simp, hs, hkk, u,
        List.mem_append_right _ (List.mem_append_right _ hu), hcommit⟩

/-! ## The registrations made by bootstrap -/

theorem addClientCalls_onlyLists {evs : List Event} (h : OnlyLists evs) :
    addClientCalls evs = [] := by
  induction evs with
  | nil => rfl
  | cons a evs ih =>
    obtain ⟨ns, e, ha⟩ := h a (List.mem_cons_self _ _)
    subst ha
    have := ih (fun x hx => h x (List.mem_cons_of_mem _ hx))
    simpa [addClientCalls] using this

theorem addClientCalls_append (a b : List Event) :
    addClientCalls (a ++ b) = addClientCalls a ++ addClientCalls b := by
  simp [addClientCalls]

theorem InitChain.addClientCalls_eq {env : Env} {namespaces : List String}
    {cfgs : List ClientConfig} {cs : List Cluster} {w w2 : World}
    (h : InitChain env namespaces cfgs cs w w2) :
    ∃ evs, w2.trace = w.trace ++ evs ∧
      w2.store.secrets = w.store.secrets ∧
      cs.length = cfgs.length ∧
      addClientCalls evs =
        List.zipWith
          (fun cfg c => (env.GetContextName (registeredConfig env w.store cfg), c.GetClient))
          cfgs cs := by
  induction h with
  | nil w => exact ⟨[], by simp, rfl, rfl, rfl⟩
  | @cons cCfg rest c cs w w1 w2 hstep _ ih =>
    obtain ⟨sec, rc, hs, _, hw⟩ := hstep.ok_world
    obtain ⟨evs2, ht2, hsec2, hlen, hcalls⟩ := ih
    have hsecrets : w1.store.secrets = w.store.secrets := by rw [hw]; rfl
    have hreg : ∀ cfg, registeredConfig env w1.store cfg = registeredConfig env w.store cfg := by
      intro cfg
      simp only [registeredConfig, Store.findSecret, hsecrets]
    refine ⟨_ ++ evs2, by rw [ht2, hw]; simp only [committedWorld, List.append_assoc]; rfl,
      by rw [hsec2, hsecrets], by simp [hlen], ?_⟩
    have hhead : registeredConfig env w.store cCfg = markedConfig env cCfg sec := by
      simp only [registeredConfig, hs]
    rw [addClientCalls_append, hcalls]
    simp only [hreg, List.zipWith, hhead]
    simp [addClientCalls]

/-- C3, as the code has it: bootstrap does not check for ClusterIdentity
collisions.  Whenever no call to a collaborator fails, InitClientConfigs
returns a nil error and has invoked AddClient exactly once per listed
ClientConfig, in listing order, each under the context name of its
ClientConfig, whether or not two of them derive the same name. -/
theorem InitClientConfigs_registers_every_context_name (env : Env) (w : World)
    (watchNamespace : String)
    (hn : NoFailure (eventsSince w (InitClientConfigs env w watchNamespace).2)) :
    ∃ cs, (InitClientConfigs env w watchNamespace).1 = (some cs, none) ∧
      cs.length = (listedClientConfigs w.store watchNamespace).length ∧
      addClientCalls (eventsSince w (InitClientConfigs env w watchNamespace).2) =
        List.zipWith
          (fun cfg c => (env.GetContextName (registeredConfig env w.store cfg), c.GetClient))
          (listedClientConfigs w.store watchNamespace) cs := by
  rcases InitClientConfigs_spec env w watchNamespace with
    ⟨e, evs, hr, hf⟩ | ⟨evs0, cs, ⟨_, hl⟩, hr, hchain⟩ |
    ⟨evs0, e, done, cCfg, todo, cs, wm, ⟨h0, _⟩, hsplit, hchain, hout, hr⟩
  · rw [hr, eventsSince_record w _ evs rfl] at hn
    exact (hf.not_noFailure hn).elim
  · obtain ⟨evs, ht, _, hlen, hcalls⟩ := hchain.addClientCalls_eq
    have htr : (InitClientConfigs env w watchNamespace).2.trace = w.trace ++ (evs0 ++ evs) := by
      rw [ht]; simp [bootWorld]
    rw [eventsSince_record w _ _ htr, addClientCalls_append, addClientCalls_onlyLists hl, hcalls]
    exact ⟨cs, hr, hlen, rfl⟩
  · obtain ⟨evs, ht, hgood, _⟩ := hchain.trace
    obtain ⟨evs1, ht1, hf1⟩ := hout.trace_error
    have htr : (InitClientConfigs env w watchNamespace).2.trace =
        w.trace ++ (evs0 ++ (evs ++ evs1)) := by
      rw [ht1, ht]; simp [bootWorld]
    rw [eventsSince_record w _ _ htr] at hn
    exact ((FailsLast.append_left h0 (FailsLast.append_left hgood hf1)).not_noFailure hn).elim

/-! ## Bootstrap followed by reconciliation -/

theorem Stable.replace_self {env : Env} {s : Store} {cCfg : ClientConfig} {sec : Secret}
    (hk : env.ClientConfigHashAnnotation ≠ KubeSecretHashAnnotation)
    (hs : s.findSecret cCfg.secretKey = some sec)
    (hc : (s.findClientConfig cCfg.key).isSome = true) :
    Stable env (s.replaceClientConfig (markedConfig env cCfg sec)) cCfg.key :=
  ⟨markedConfig env cCfg sec, sec,
    findClientConfig_replace_self s (markedConfig env cCfg sec) hc,
    hs,
    markedConfig_has_config_hash env cCfg sec,
    markedConfig_has_secret_hash env cCfg sec,
    markedConfig_config_hash env cCfg sec hk,
    markedConfig_secret_hash env cCfg sec⟩

theorem Stable.replace {env : Env} {s : Store} {cCfg : ClientConfig} {sec : Secret}
    {key : NamespacedName}
    (hk : env.ClientConfigHashAnnotation ≠ KubeSecretHashAnnotation)
    (hs : s.findSecret cCfg.secretKey = some sec)
    (h : Stable env s key) :
    Stable env (s.replaceClientConfig (markedConfig env cCfg sec)) key := by
  by_cases hkey : key = cCfg.key
  · subst hkey
    obtain ⟨cc, _, hfind, _⟩ := h
    exact Stable.replace_self hk hs (by rw [hfind]; rfl)
  · obtain ⟨cc, sec1, hfind, hsec, h1, h2, h3, h4⟩ := h
    refine ⟨cc, sec1, ?_, hsec, h1, h2, h3, h4⟩
    rw [findClientConfig_replace_ne s (markedConfig env cCfg sec) key hkey]
    exact hfind

theorem InitChain.stable {env : Env} {namespaces : List String}
    {cfgs : List ClientConfig} {cs : List Cluster} {w w2 : World}
    (hk : env.ClientConfigHashAnnotation ≠ KubeSecretHashAnnotation)
    (h : InitChain env namespaces cfgs cs w w2) :
    (∀ key, Stable env w.store key → Stable env w2.store key) ∧
    ∀ cfg ∈ cfgs, Stable env w2.store cfg.key := by
  induction h with
  | nil w => exact ⟨fun _ h => h, fun cfg hcfg => by simp at hcfg⟩
  | @cons cCfg rest c cs w w1 w2 hstep _ ih =>
    obtain ⟨sec, rc, hs, hc, hw⟩ := hstep.ok_world
    have hstore : w1.store = w.store.replaceClientConfig (markedConfig env cCfg sec) := by
      rw [hw]; rfl
    obtain ⟨hpres, hall⟩ := ih
    refine ⟨fun key hst => hpres key (by rw [hstore]; exact hst.replace hk hs), ?_⟩
    intro cfg hcfg
    rcases List.mem_cons.mp hcfg with h1 | h1
    · subst h1
      exact hpres _ (by rw [hstore]; exact Stable.replace_self hk hs hc)
    · exact hall cfg h1

/-- On a stable ClientConfig Reconcile never invokes the shutdown function,
and returns the empty Result with a nil error when its Gets are answered. -/
theorem Reconcile_stable (env : Env) (w : World) (req : Request)
    (h : Stable env w.store req.NamespacedName) :
    Event.shutdown ∉ eventsSince w (Reconcile env w req).2 ∧
    (Reconcile env w req).2.cancelled = w.cancelled ∧
    (GetsAnswered env w req → (Reconcile env w req).1 = (Result.empty, none)) := by
  obtain ⟨cc, sec, hfind, hsec, h1, h2, h3, h4⟩ := h
  unfold eventsSince GetsAnswered
  simp only [ClientConfig.secretKey] at hsec
  cases hf : env.getClientConfigFault w req.NamespacedName with
  | some msg =>
    simp [Reconcile, getClientConfig, hf, Err.IsNotFound, World.record, errOf]
  | none =>
    cases hf2 : env.getSecretFault
        (w.record (Event.getClientConfig req.NamespacedName none))
        { Namespace := cc.Namespace, Name := cc.Spec.KubeConfigSecret.Name } with
    | some msg =>
      refine ⟨?_, ?_, ?_⟩
      · simp only [World.record] at hf2
        simp [Reconcile, getClientConfig, calculateHashes, getSecret, hf, hfind, h1, h2, hf2,
          Err.IsNotFound, World.record, errOf]
      · simp only [World.record] at hf2
        simp [Reconcile, getClientConfig, calculateHashes, getSecret, hf, hfind, h1, h2, hf2,
          Err.IsNotFound, World.record, errOf]
      · intro hall
        rw [hall.2] at hf2
        exact absurd hf2 (by simp)
    | none =>
      simp only [World.record] at hf2
      simp [Reconcile, getClientConfig, calculateHashes, getSecret, hf, hfind, h1, h2, hf2,
        hsec, h3, h4, World.record, errOf]

/-- C10: bootstrap followed by reconciliation is stable.  When the two
annotation keys are distinct and InitClientConfigs has succeeded, Reconcile on
the key of any listed ClientConfig, run against the store bootstrap left, does
not invoke the shutdown function, and returns the empty Result with a nil
error when its Gets are answered from the store. -/
theorem Reconcile_after_bootstrap_is_stable (env : Env) (w : World) (watchNamespace : String)
    (hk : env.ClientConfigHashAnnotation ≠ KubeSecretHashAnnotation)
    (hok : (InitClientConfigs env w watchNamespace).1.2 = none)
    (cfg : ClientConfig) (hcfg : cfg ∈ listedClientConfigs w.store watchNamespace)
    (w1 : World) (hstore : w1.store = (InitClientConfigs env w watchNamespace).2.store) :
    Event.shutdown ∉ eventsSince w1 (Reconcile env w1 { NamespacedName := cfg.key }).2 ∧
    (Reconcile env w1 { NamespacedName := cfg.key }).2.cancelled = w1.cancelled ∧
    (GetsAnswered env w1 { NamespacedName := cfg.key } →
      (Reconcile env w1 { NamespacedName := cfg.key }).1 = (Result.empty, none)) := by
  have hst : Stable env w1.store cfg.key := by
    rw [hstore]
    rcases InitClientConfigs_spec env w watchNamespace with
      ⟨e, evs, hr, hf⟩ | ⟨evs0, cs, _, hr, hchain⟩ |
      ⟨evs0, e, done, cCfg, todo, cs, wm, _, hsplit, hchain, hout, hr⟩
    · rw [hr] at hok; simp at hok
    · exact (hchain.stable hk).2 cfg hcfg
    · rw [hr] at hok; simp at hok
  exact Reconcile_stable env w1 { NamespacedName := cfg.key } hst

/-! ## The reconciler's drift cases -/

/-- C1: when the Gets of the run are answered from the store (object or
NotFound), Reconcile invokes the shutdown function exactly in the four drift
cases, is a no-op otherwise, and in all these cases returns the empty Result
with a nil error. -/
theorem Reconcile_shutdown_iff_drift (env : Env) (w : World) (req : Request)
    (h : GetsAnswered env w req) :
    (Event.shutdown ∈ eventsSince w (Reconcile env w req).2 ↔
      driftCondition env w.store req) ∧
    (¬ driftCondition env w.store req → isNoOp w (Reconcile env w req).2) ∧
    (Reconcile env w req).1 = (Result.empty, none) := by
  obtain ⟨hcc, hsec⟩ := h
  simp only [World.record] at hsec
  unfold driftCondition isNoOp eventsSince
  simp only [Reconcile, getClientConfig, calculateHashes, getSecret, hcc,
    World.record, shutdownFunc, ClientConfig.secretKey]
  cases hfind : w.store.findClientConfig req.NamespacedName with
  | none => simp [Err.IsNotFound, errOf]
  | some cc =>
    simp only [errOf, hsec]
    by_cases h1 : HasAnnotation cc env.ClientConfigHashAnnotation = true
    · by_cases h2 : HasAnnotation cc KubeSecretHashAnnotation = true
      · cases hs : w.store.findSecret
            { Namespace := cc.Namespace, Name := cc.Spec.KubeConfigSecret.Name } with
        | none => simp [h1, h2, Err.IsNotFound, errOf, hs]
        | some sec =>
          by_cases h3 : annotationValue cc env.ClientConfigHashAnnotation = env.hashSpec cc.Spec
          · by_cases h4 : annotationValue cc KubeSecretHashAnnotation = env.hashData sec.Data
            · simp [h1, h2, hs, h3, h4, Event.isGet]
            · have h4b := Ne.symm h4
              simp [h1, h2, hs, h3, h4, h4b, Event.isGet]
          · have h3b := Ne.symm h3
            simp [h1, h2, hs, h3, h3b, Event.isGet]
      · simp [h1, h2]
    · simp [h1]

set_option maxRecDepth 100000

/-! ## The theorems at the concrete control plane -/

/-- C1 at `ops/east` before bootstrap: the Gets are answered and the theorem applies. -/
theorem Reconcile_shutdown_iff_drift_witness :
    GetsAnswered envOk world0 reqEast ∧
    ((Event.shutdown ∈ eventsSince world0 (Reconcile envOk world0 reqEast).2 ↔
        driftCondition envOk world0.store reqEast) ∧
      (¬ driftCondition envOk world0.store reqEast →
        isNoOp world0 (Reconcile envOk world0 reqEast).2) ∧
      (Reconcile envOk world0 reqEast).1 = (Result.empty, none)) :=
  ⟨⟨rfl, fun _ => rfl⟩,
    Reconcile_shutdown_iff_drift envOk world0 reqEast ⟨rfl, fun _ => rfl⟩⟩

/-- C7 at `ops/east` after bootstrap, when the Get of its Secret times out. -/
theorem Reconcile_propagates_transient_error_witness :
    transientFetchError envSecretTimeout worldBooted reqEast (Err.other "timeout") ∧
    ((Reconcile envSecretTimeout worldBooted reqEast).1 =
        (Result.empty, some (Err.other "timeout")) ∧
      (Err.other "timeout").IsNotFound = false ∧
      Event.shutdown ∉ eventsSince worldBooted
        (Reconcile envSecretTimeout worldBooted reqEast).2 ∧
      (Reconcile envSecretTimeout worldBooted reqEast).2.cancelled = worldBooted.cancelled) :=
  have h : transientFetchError envSecretTimeout worldBooted reqEast (Err.other "timeout") :=
    Or.inr ⟨markedConfig envOk cfgEast secEast, "timeout", rfl, by decide, by decide,
      by decide, rfl, rfl⟩
  ⟨h, Reconcile_propagates_transient_error envSecretTimeout worldBooted reqEast
    (Err.other "timeout") h⟩

/-- C8 at `ops/east` before bootstrap, where Reconcile requests shutdown. -/
theorem Reconcile_shutdown_idempotent_witness :
    Event.shutdown ∈ eventsSince world0 (Reconcile envOk world0 reqEast).2 ∧
    ((eventsSince world0 (Reconcile envOk world0 reqEast).2).count Event.shutdown = 1 ∧
      (Reconcile envOk world0 reqEast).2.cancelled = true ∧
      (Reconcile envOk (Reconcile envOk world0 reqEast).2 reqEast).2.cancelled =
        (Reconcile envOk world0 reqEast).2.cancelled ∧
      (Reconcile envOk (Reconcile envOk world0 reqEast).2 reqEast).2.store = world0.store ∧
      (Reconcile envOk (Reconcile envOk world0 reqEast).2 reqEast).2.secretFilter =
        world0.secretFilter) :=
  ⟨by decide, (Reconcile_shutdown_idempotent envOk world0 reqEast).2 (by decide)⟩

/-- C5 at the bootstrap of `ops/east` and `ops/west`, whose Secrets are distinct. -/
theorem toMatchingClientConfig_reverse_index_witness :
    (InitClientConfigs envOk world0 "").1.2 = none ∧
    ((listedClientConfigs world0.store "").map ClientConfig.secretKey).Nodup ∧
    ((∀ cfg ∈ listedClientConfigs world0.store "", ∀ secret : Secret,
        secret.key = cfg.secretKey →
        toMatchingClientConfig (InitClientConfigs envOk world0 "").2 secret =
          [{ NamespacedName := cfg.key }]) ∧
      (∀ secret : Secret,
        secret.key ∉ (listedClientConfigs world0.store "").map ClientConfig.secretKey →
        toMatchingClientConfig (InitClientConfigs envOk world0 "").2 secret = [])) :=
  ⟨by decide, by decide,
    toMatchingClientConfig_reverse_index envOk world0 "" (by decide) (by decide)⟩

/-- C4 at a bootstrap that fails at the rest config derivation of `ops/east`. -/
theorem secretFilter_entries_committed_witness :
    world0.secretFilter = [] ∧
    mapGet cfgEast.secretKey (InitClientConfigs envRestFails world0 "").2.secretFilter =
      some cfgEast.key ∧
    ∃ cfg ∈ listedClientConfigs world0.store "",
      cfg.secretKey = cfgEast.secretKey ∧ cfg.key = cfgEast.key ∧
      ∃ u ∈ eventsSince world0 (InitClientConfigs envRestFails world0 "").2,
        isMarkerCommit envRestFails cfg u :=
  ⟨rfl, by decide,
    secretFilter_entries_committed envRestFails world0 "" rfl cfgEast.secretKey cfgEast.key
      (by decide)⟩

/-- C3 at the bootstrap of `ops/east` and `ops/west`, in which no call fails. -/
theorem InitClientConfigs_registers_every_context_name_witness :
    NoFailure (eventsSince world0 (InitClientConfigs envOk world0 "").2) ∧
    ∃ cs, (InitClientConfigs envOk world0 "").1 = (some cs, none) ∧
      cs.length = (listedClientConfigs world0.store "").length ∧
      addClientCalls (eventsSince world0 (InitClientConfigs envOk world0 "").2) =
        List.zipWith
          (fun cfg c =>
            (envOk.GetContextName (registeredConfig envOk world0.store cfg), c.GetClient))
          (listedClientConfigs world0.store "") cs :=
  have h : NoFailure (eventsSince world0 (InitClientConfigs envOk world0 "").2) := by
    unfold NoFailure
    decide
  ⟨h, InitClientConfigs_registers_every_context_name envOk world0 "" h⟩

/-- C10 at `ops/east` after a successful bootstrap. -/
theorem Reconcile_after_bootstrap_is_stable_witness :
    envOk.ClientConfigHashAnnotation ≠ KubeSecretHashAnnotation ∧
    (InitClientConfigs envOk world0 "").1.2 = none ∧
    cfgEast ∈ listedClientConfigs world0.store "" ∧
    worldBooted.store = (InitClientConfigs envOk world0 "").2.store ∧
    (Event.shutdown ∉ eventsSince worldBooted
        (Reconcile envOk worldBooted { NamespacedName := cfgEast.key }).2 ∧
      (Reconcile envOk worldBooted { NamespacedName := cfgEast.key }).2.cancelled =
        worldBooted.cancelled ∧
      (GetsAnswered envOk worldBooted { NamespacedName := cfgEast.key } →
        (Reconcile envOk worldBooted { NamespacedName := cfgEast.key }).1 =
          (Result.empty, none))) :=
  ⟨by decide, by decide, by decide, rfl,
    Reconcile_after_bootstrap_is_stable envOk world0 "" (by decide) (by decide) cfgEast
      (by decide) worldBooted rfl⟩

/-- C6 at a bootstrap whose fourth call, the rest config derivation of
`ops/east`, fails: it is the last call and its error is returned. -/
theorem InitClientConfigs_no_partial_success_witness :
    eventsSince world0 (InitClientConfigs envRestFails world0 "").2 =
      [Event.list "" none,
       Event.getSecret cfgEast.secretKey none,
       Event.update (markedConfig envRestFails cfgEast secEast) none] ++
      Event.getRestConfig (markedConfig envRestFails cfgEast secEast)
        (Except.error (Err.other "no kubeconfig")) :: [] ∧
    (([] : List Event) = [] ∧
      (InitClientConfigs envRestFails world0 "").1 = (none, some (Err.other "no kubeconfig"))) :=
  ⟨by decide,
    (InitClientConfigs_no_partial_success envRestFails world0 "").1
      [Event.list "" none,
       Event.getSecret cfgEast.secretKey none,
       Event.update (markedConfig envRestFails cfgEast secEast) none]
      (Event.getRestConfig (markedConfig envRestFails cfgEast secEast)
        (Except.error (Err.other "no kubeconfig")))
      [] (Err.other "no kubeconfig") (by decide) (by decide)⟩

/-- C2 at the initialization of `ops/east` when every collaborator succeeds:
the AddClient call, fifth of the run, comes after the marker commit. -/
theorem markers_committed_before_registration_witness :
    ∃ u ∈ [Event.getSecret cfgEast.secretKey none,
           Event.update (markedConfig envOk cfgEast secEast) none,
           Event.getRestConfig (markedConfig envOk cfgEast secEast)
             (Except.ok { handle := 2 }),
           Event.clusterNew { handle := 2 } (clusterOptions envOk [])
             (Except.ok { handle := 2, client := { handle := 2 } })],
      isMarkerCommit envOk cfgEast u :=
  (markers_committed_before_registration envOk world0 cfgEast []).1
    [Event.getSecret cfgEast.secretKey none,
     Event.update (markedConfig envOk cfgEast secEast) none,
     Event.getRestConfig (markedConfig envOk cfgEast secEast) (Except.ok { handle := 2 }),
     Event.clusterNew { handle := 2 } (clusterOptions envOk [])
       (Except.ok { handle := 2, client := { handle := 2 } })]
    (Event.addClient "remote" { handle := 2 })
    [Event.mgrAdd { handle := 2, client := { handle := 2 } } none]
    (by decide) (by decide)

/-- C9 at the initialization of `ops/east` when the rest config derivation
fails: the GetRestConfig call, third of the run, comes after the marker
commit. -/
theorem markers_committed_before_construction_witness :
    ∃ u ∈ [Event.getSecret cfgEast.secretKey none,
           Event.update (markedConfig envRestFails cfgEast secEast) none],
      isMarkerCommit envRestFails cfgEast u :=
  markers_committed_before_construction envRestFails world0 cfgEast []
    [Event.getSecret cfgEast.secretKey none,
     Event.update (markedConfig envRestFails cfgEast secEast) none]
    (Event.getRestConfig (markedConfig envRestFails cfgEast secEast)
      (Except.error (Err.other "no kubeconfig")))
    [] (by decide) (by decide)

/-- C3 fails on the code: `ops/east` and `ops/west` are distinct ClientConfigs
deriving the same context name `remote`, yet InitClientConfigs returns a nil
error with both clusters, after calling AddClient twice under `remote`. -/
theorem InitClientConfigs_collision_counterexample :
    cfgEast ∈ listedClientConfigs world0.store "" ∧
    cfgWest ∈ listedClientConfigs world0.store "" ∧
    cfgEast ≠ cfgWest ∧
    envOk.GetContextName cfgEast = envOk.GetContextName cfgWest ∧
    (InitClientConfigs envOk world0 "").1 =
      (some [{ handle := 3, client := { handle := 3 } },
             { handle := 9, client := { handle := 9 } }], none) ∧
    addClientCalls (eventsSince world0 (InitClientConfigs envOk world0 "").2) =
      [("remote", { handle := 3 }), ("remote", { handle := 9 })] := by
  decide

/-- C4 fails on the code: the initialization of `ops/east` fails at the rest
config derivation, InitClientConfigs returns that error, and the secret filter
holds the entry of `ops/east` all the same. -/
theorem secretFilter_failed_entry_counterexample :
    (initAdditionalClusterConfig envRestFails (bootWorld world0 [Event.list "" none])
      cfgEast []).1 = Except.error (Err.other "no kubeconfig") ∧
    (InitClientConfigs envRestFails world0 "").1 = (none, some (Err.other "no kubeconfig")) ∧
    (InitClientConfigs envRestFails world0 "").2.secretFilter =
      [(cfgEast.secretKey, cfgEast.key)] := by
  decide

/-- C9 fails on the code: in the initialization of `ops/east` the Update
persisting both hash annotations is performed and succeeds, although no rest
config derivation and no cluster construction has succeeded; the object stays
persisted with its markers. -/
theorem markers_committed_without_construction_counterexample :
    Event.update (markedConfig envRestFails cfgEast secEast) none ∈
      eventsSince world0 (initAdditionalClusterConfig envRestFails world0 cfgEast []).2 ∧
    HasAnnotation (markedConfig envRestFails cfgEast secEast)
      envRestFails.ClientConfigHashAnnotation = true ∧
    HasAnnotation (markedConfig envRestFails cfgEast secEast) KubeSecretHashAnnotation = true ∧
    (∀ ev ∈ eventsSince world0 (initAdditionalClusterConfig envRestFails world0 cfgEast []).2,
      ev.isSuccessfulConstruction = false) ∧
    (initAdditionalClusterConfig envRestFails world0 cfgEast []).2.store.findClientConfig
      cfgEast.key = some (markedConfig envRestFails cfgEast secEast) := by
  decide

end ClientConfigController
